import Mathlib

/-!
Shallow embedding of the validation-and-transform pipeline of the
`azure-style-data-platform` repository (src/pipeline/validate.py,
src/pipeline/transform.py), together with theorems settling the
claims about it.

Modelling conventions:
* A pandas DataFrame column cell is either a typed value or missing
  (`Option`): `none` stands for null/NaN, and also for a value that
  `pd.to_numeric`/`pd.to_datetime(..., errors="coerce")` would turn
  into NaN/NaT, so the coercion step of `validate_data` acts as the
  identity on cells and drops `none` cells.  Float arithmetic is
  modelled by exact rational arithmetic (`ℚ`).
* Dates are abstract: an `Int` code ordered like the calendar dates.
  The calendar-derived attribute columns of the time dimension
  (year, month, quarter, day_of_week, month_name, is_weekend) are
  per-row derivations of `date` that no claim references, and are
  not carried in the embedding.
* The frames handled by `validate_data` are modelled as a list of
  column names (for the schema check) together with rows carrying
  the fixed column set of the source kind.
* Free-text fragments of report entries that render Python `dict`s /
  `set`s (the null-audit warning, the missing-column set) are
  abstracted to fixed marker strings; every detail string a claim
  references is reproduced verbatim.
-/

/-! ### Generic list helpers used by several pipeline stages -/

/-- Pandas `drop_duplicates(subset=[key])` / `drop_duplicates()` keeps,
for every key value, the first row carrying it, in original row order.
`seen` accumulates the key values already emitted. -/
def dedupFirstByAux {α β : Type} [DecidableEq β] (key : α → β) : List β → List α → List α
  | _, [] => []
  | seen, a :: as =>
    if key a ∈ seen then dedupFirstByAux key seen as
    else a :: dedupFirstByAux key (key a :: seen) as

/-- Pandas `drop_duplicates` keyed by `key`: first occurrences, original order. -/
def dedupFirstBy {α β : Type} [DecidableEq β] (key : α → β) (l : List α) : List α :=
  dedupFirstByAux key [] l

/-- Keys `range(start, start+len(l))` zipped onto `l`: the surrogate-key
assignment `df["k"] = range(1, len(df) + 1)`. -/
def withKeys {α : Type} (start : Nat) : List α → List (Nat × α)
  | [] => []
  | a :: as => (start, a) :: withKeys (start + 1) as

/-- Decidable equality for `Except` results, used to evaluate the
embedded pipeline on concrete frames. -/
instance {ε α : Type} [DecidableEq ε] [DecidableEq α] : DecidableEq (Except ε α) := by
  intro a b
  cases a <;> cases b
  case error.error x y | ok.ok x y =>
    exact if h : x = y then .isTrue (by rw [h]) else
      .isFalse (by intro hc; cases hc; exact h rfl)
  all_goals exact .isFalse (by intro hc; cases hc)

/-! ### Validation report (class ValidationReport of validate.py) -/

/-- One entry of `ValidationReport.checks` (validate.py, `add_check`). -/
structure CheckEntry where
  check : String
  status : String
  details : String
deriving DecidableEq

/-- The report accumulated by `validate_data` and persisted by
`ValidationReport.save` (timestamp and file name are I/O context and
not modelled). -/
structure ValidationReport where
  source_type : String
  initial_count : Nat
  final_count : Nat
  checks : List CheckEntry
  errors : List String
  warnings : List String
deriving DecidableEq

/-- Overall status `"FAILED" if self.errors else "PASSED"` (validate.py, `save`). -/
def ValidationReport.status (r : ValidationReport) : String :=
  if r.errors.isEmpty then "PASSED" else "FAILED"

/-! ### Sales (csv) rows and the csv branch of validate_data -/

/-- A raw row of the Sales (csv) frame: the eight columns the pipeline's
csv frames carry.  Each cell is `Option`-typed (none = null/unparseable). -/
structure RawSalesRow where
  transaction_id : Option String
  date : Option Int
  product_id : Option String
  customer_id : Option String
  quantity : Option ℚ
  unit_price : Option ℚ
  total_amount : Option ℚ
  region : Option String
deriving DecidableEq

/-- The `required_columns` of `validate_csv_schema`. -/
def requiredSalesColumns : List String :=
  ["transaction_id", "date", "product_id", "customer_id",
   "quantity", "unit_price", "total_amount"]

/-- The set difference `set(required_columns) - set(df.columns)` of
`validate_csv_schema`, as the list of required columns absent from `cols`. -/
def salesSchemaMissing (cols : List String) : List String :=
  requiredSalesColumns.filter (fun c => ¬ cols.contains c)

/-- Row scan of `df.isnull()`: true iff some cell is null. -/
def RawSalesRow.hasNull (r : RawSalesRow) : Bool :=
  r.transaction_id.isNone || r.date.isNone || r.product_id.isNone ||
  r.customer_id.isNone || r.quantity.isNone || r.unit_price.isNone ||
  r.total_amount.isNone || r.region.isNone

/-- The `dropna(subset=["transaction_id", "product_id", "customer_id"])` drop. -/
def dropNullKeySales (rows : List RawSalesRow) : List RawSalesRow :=
  rows.filter (fun r =>
    r.transaction_id.isSome && r.product_id.isSome && r.customer_id.isSome)

/-- Null-audit remediation for csv: the key-column `dropna` runs only
under `if nulls.any()` (validate.py lines 134-150). -/
def salesNullStep (rows : List RawSalesRow) : List RawSalesRow :=
  if rows.any RawSalesRow.hasNull then dropNullKeySales rows else rows

/-- The `drop_duplicates(subset=["transaction_id"])` step. -/
def salesDedup (rows : List RawSalesRow) : List RawSalesRow :=
  dedupFirstBy (fun r => r.transaction_id) rows

/-- Type enforcement for csv: after the (identity) coercions, the
`dropna(subset=["date", "quantity", "unit_price", "total_amount"])`. -/
def salesTypeStep (rows : List RawSalesRow) : List RawSalesRow :=
  rows.filter (fun r =>
    r.date.isSome && r.quantity.isSome && r.unit_price.isSome && r.total_amount.isSome)

/-- The business-rule mask `df["quantity"] > 0` / `df["unit_price"] > 0`:
a NaN comparison is False, matching `Option.getD _ 0`. -/
def salesRuleFilter (r : RawSalesRow) : Bool :=
  decide (0 < r.quantity.getD 0) && decide (0 < r.unit_price.getD 0)

/-- The product `calculated_total = quantity * unit_price` assigned into
`total_amount` (NaN-propagating elementwise product). -/
def recomputeTotal (r : RawSalesRow) : RawSalesRow :=
  { r with total_amount := Option.map₂ (· * ·) r.quantity r.unit_price }

/-- Business-rule enforcement for csv (validate.py lines 196-206). -/
def salesBusinessStep (rows : List RawSalesRow) : List RawSalesRow :=
  (rows.filter salesRuleFilter).map recomputeTotal

/-- The whole row-level cleaning chain of the csv branch, in the order
the checks run. -/
def salesPipeline (rows : List RawSalesRow) : List RawSalesRow :=
  salesBusinessStep (salesTypeStep (salesDedup (salesNullStep rows)))

/-- Function `validate_data(df, "csv")`: `.error` is the `raise Exception(...)`
path (the re-raise of validate.py line 241), carrying the message and
the report persisted by the `except` block; in the embedding only the
schema check can raise, every later step being total.  `.ok` carries
the cleaned rows and the persisted report. -/
def validateSales (cols : List String) (rows : List RawSalesRow) :
    Except (String × ValidationReport) (List RawSalesRow × ValidationReport) :=
  let report0 : ValidationReport :=
    { source_type := "csv", initial_count := rows.length, final_count := 0,
      checks := [], errors := [], warnings := [] }
  if salesSchemaMissing cols ≠ [] then
    let msg := "Missing required columns: " ++ toString (salesSchemaMissing cols)
    .error ("Validation failed for csv: " ++ msg, { report0 with errors := [msg] })
  else
    let checks1 : List CheckEntry := [⟨"Schema Validation", "PASSED", ""⟩]
    let rows1 := salesNullStep rows
    let checks2 := checks1 ++
      (if rows.any RawSalesRow.hasNull then
        [⟨"Null Handling", "PASSED",
          "Removed " ++ toString (rows.length - rows1.length) ++ " rows with null key fields"⟩]
       else [⟨"Null Check", "PASSED", "No null values found"⟩])
    let warns1 : List String :=
      if rows.any RawSalesRow.hasNull then ["Null values detected"] else []
    let rows2 := salesDedup rows1
    let checks3 := checks2 ++
      [⟨"Deduplication", "PASSED",
        "Removed " ++ toString (rows1.length - rows2.length) ++ " duplicate records"⟩]
    let rows3 := salesTypeStep rows2
    let warns2 := warns1 ++
      (if rows2.length - rows3.length > 0 then
        ["Removed " ++ toString (rows2.length - rows3.length) ++ " rows due to type conversion issues"]
       else [])
    let checks4 := checks3 ++ [⟨"Type Enforcement", "PASSED", ""⟩]
    let rows4 := salesBusinessStep rows3
    let checks5 := checks4 ++
      [⟨"Business Rules", "PASSED",
        "Removed " ++ toString (rows3.length - (rows3.filter salesRuleFilter).length) ++
          " rows with invalid quantity/price; recalculated totals"⟩]
    .ok (rows4,
      { report0 with final_count := rows4.length, checks := checks5, warnings := warns2 })

/-! ### UserProfile (api) rows and the api branch of validate_data -/

/-- A raw row of the UserProfile (api) frame with the columns the
pipeline's api frames carry (`id` carries the post-`to_numeric` value;
address/company columns are absent from the ingested feed and no claim
references them). -/
structure RawUserRow where
  id : Option ℚ
  name : Option String
  username : Option String
  email : Option String
  phone : Option String
  website : Option String
deriving DecidableEq

/-- The `required_columns` of `validate_api_schema`. -/
def requiredUserColumns : List String := ["id", "name", "username", "email"]

/-- The set difference `set(required_columns) - set(df.columns)` of `validate_api_schema`. -/
def userSchemaMissing (cols : List String) : List String :=
  requiredUserColumns.filter (fun c => ¬ cols.contains c)

/-- Row scan of `df.isnull()` on one api row. -/
def RawUserRow.hasNull (r : RawUserRow) : Bool :=
  r.id.isNone || r.name.isNone || r.username.isNone ||
  r.email.isNone || r.phone.isNone || r.website.isNone

/-- The `fillna("N/A")` fill of the optional columns `phone` and `website`. -/
def fillUserDefaults (r : RawUserRow) : RawUserRow :=
  { r with phone := some (r.phone.getD "N/A"), website := some (r.website.getD "N/A") }

/-- Null-audit remediation for api: the fill runs only under
`if nulls.any()` (validate.py lines 134-156). -/
def userNullStep (rows : List RawUserRow) : List RawUserRow :=
  if rows.any RawUserRow.hasNull then rows.map fillUserDefaults else rows

/-- The `drop_duplicates(subset=["id"])` step. -/
def userDedup (rows : List RawUserRow) : List RawUserRow :=
  dedupFirstBy (fun r => r.id) rows

/-- Type enforcement for api: `dropna(subset=["id"])` after the
(identity) numeric coercion. -/
def userTypeStep (rows : List RawUserRow) : List RawUserRow :=
  rows.filter (fun r => r.id.isSome)

/-- Mask `df["email"].str.contains("@", na=False)`: a null email is False.
(Characterwise containment over the string's character list.) -/
def emailHasAt (r : RawUserRow) : Bool :=
  (r.email.map (fun s => s.data.contains '@')).getD false

/-- Business-rule enforcement for api (validate.py lines 213-223). -/
def userBusinessStep (rows : List RawUserRow) : List RawUserRow :=
  rows.filter emailHasAt

/-- The whole row-level cleaning chain of the api branch. -/
def userPipeline (rows : List RawUserRow) : List RawUserRow :=
  userBusinessStep (userTypeStep (userDedup (userNullStep rows)))

/-- Function `validate_data(df, "api")`, conventions as in `validateSales`. -/
def validateUsers (cols : List String) (rows : List RawUserRow) :
    Except (String × ValidationReport) (List RawUserRow × ValidationReport) :=
  let report0 : ValidationReport :=
    { source_type := "api", initial_count := rows.length, final_count := 0,
      checks := [], errors := [], warnings := [] }
  if userSchemaMissing cols ≠ [] then
    let msg := "Missing required columns: " ++ toString (userSchemaMissing cols)
    .error ("Validation failed for api: " ++ msg, { report0 with errors := [msg] })
  else
    let checks1 : List CheckEntry := [⟨"Schema Validation", "PASSED", ""⟩]
    let rows1 := userNullStep rows
    let checks2 := checks1 ++
      (if rows.any RawUserRow.hasNull then
        [⟨"Null Handling", "PASSED", "Filled defaults for optional fields"⟩]
       else [⟨"Null Check", "PASSED", "No null values found"⟩])
    let warns1 : List String :=
      if rows.any RawUserRow.hasNull then ["Null values detected"] else []
    let rows2 := userDedup rows1
    let checks3 := checks2 ++
      [⟨"Deduplication", "PASSED",
        "Removed " ++ toString (rows1.length - rows2.length) ++ " duplicate records"⟩]
    let rows3 := userTypeStep rows2
    let warns2 := warns1 ++
      (if rows2.length - rows3.length > 0 then
        ["Removed " ++ toString (rows2.length - rows3.length) ++ " rows with invalid ID"]
       else [])
    let checks4 := checks3 ++ [⟨"Type Enforcement", "PASSED", ""⟩]
    let rows4 := userBusinessStep rows3
    let checks5 := checks4 ++
      [⟨"Business Rules", "PASSED",
        "Removed " ++ toString (rows3.length - rows4.length) ++ " rows with invalid email"⟩]
    .ok (rows4,
      { report0 with final_count := rows4.length, checks := checks5, warnings := warns2 })

/-! ### transform_csv_data (transform.py lines 9-60) -/

/-- A validated Sales row: the shape of rows flowing out of
`validate_data(df, "csv")`, where the key, date and numeric cells are
known non-null (`region` alone may still be null). -/
structure SalesRow where
  transaction_id : String
  date : Int
  product_id : String
  customer_id : String
  quantity : ℚ
  unit_price : ℚ
  total_amount : ℚ
  region : Option String
deriving DecidableEq

/-- Reading a `RawSalesRow` as a validated row; `none` when some
required cell is null (cannot happen on `validateSales` output). -/
def toCleanSales (r : RawSalesRow) : Option SalesRow :=
  match r.transaction_id, r.date, r.product_id, r.customer_id,
        r.quantity, r.unit_price, r.total_amount with
  | some t, some d, some pid, some cid, some q, some p, some amt =>
      some ⟨t, d, pid, cid, q, p, amt, r.region⟩
  | _, _, _, _, _, _, _ => none

/-- A row of `df_time` (calendar-derived attribute columns omitted,
see the header comment). -/
structure TimeRow where
  date : Int
  date_id : Nat
deriving DecidableEq

/-- A row of `df_product`. -/
structure ProductRow where
  product_id : String
  product_key : Nat
  product_category : String
deriving DecidableEq

/-- A row of `df_customer`. -/
structure CustomerRow where
  customer_id : String
  region : Option String
  customer_key : Nat
deriving DecidableEq

/-- A row of `fact_sales` after the three left-merges and the measure
columns; the surrogate-key columns are `Option`-valued because a failed
left join leaves NaN. -/
structure FactRow where
  transaction_id : String
  date_id : Option Nat
  product_key : Option Nat
  customer_key : Option Nat
  quantity : ℚ
  unit_price : ℚ
  revenue : ℚ
  cost : ℚ
  profit : ℚ
  profit_margin : ℚ
deriving DecidableEq

/-- Python `x.replace("PROD", "")`: `str.replace` removes every
non-overlapping occurrence of `"PROD"`, scanning left to right. -/
def stripPROD : List Char → List Char
  | 'P' :: 'R' :: 'O' :: 'D' :: rest => stripPROD rest
  | c :: cs => c :: stripPROD cs
  | [] => []

/-- Value of an all-digit character list, most significant digit first. -/
def digitsToNat (l : List Char) : Nat :=
  l.foldl (fun n c => 10 * n + (c.toNat - 48)) 0

/-- Python `int(s)` restricted to the unsigned-decimal case: `some`
exactly on a non-empty all-digit string.  (Python's `int` also accepts
signs, surrounding whitespace and `_` separators; no claim involves
those shapes, and on every shape this model accepts, the value agrees
with Python's.) -/
def pyInt? (s : String) : Option Nat :=
  if s.data ≠ [] ∧ s.data.all Char.isDigit then some (digitsToNat s.data) else none

/-- The lambda of transform.py line 24:
`f"Category_{int(x.replace('PROD', '')) % 3 + 1}"`; `none` models the
`ValueError` escaping from `int`. -/
def productCategory? (pid : String) : Option String :=
  (pyInt? (String.mk (stripPROD pid.data))).map
    (fun n => "Category_" ++ toString (n % 3 + 1))

/-- Table `df_time`: distinct dates in first-seen order, `date_id = range(1, ...)`. -/
def dimTime (rows : List SalesRow) : List TimeRow :=
  (withKeys 1 (dedupFirstBy id (rows.map (fun r => r.date)))).map
    (fun p => ⟨p.2, p.1⟩)

/-- Element-wise fallible map: `none` as soon as `g` fails, as a raising
`Series.apply` does. -/
def mapOption {α β : Type} (g : α → Option β) : List α → Option (List β)
  | [] => some []
  | a :: as => (g a).bind (fun b => (mapOption g as).map (fun bs => b :: bs))

/-- Table `df_product`: distinct product ids in first-seen order with keys and
the derived category; `none` when the category lambda raises on any of
them (the `ValueError` aborts `transform_csv_data` with no output). -/
def dimProduct (rows : List SalesRow) : Option (List ProductRow) :=
  mapOption (fun p => (productCategory? p.2).map (fun cat => ⟨p.2, p.1, cat⟩))
    (withKeys 1 (dedupFirstBy id (rows.map (fun r => r.product_id))))

/-- Table `df_customer`: `df[["customer_id", "region"]].drop_duplicates()`
deduplicates on the (customer_id, region) PAIR, in first-seen row order
(no sort by date), then assigns `customer_key = range(1, ...)`. -/
def dimCustomer (rows : List SalesRow) : List CustomerRow :=
  (withKeys 1 (dedupFirstBy id (rows.map (fun r => (r.customer_id, r.region))))).map
    (fun p => ⟨p.2.1, p.2.2, p.1⟩)

/-- Key multiset a left merge attaches to one row: every matching right
row's key, or a single NaN (`none`) when nothing matches. -/
def joinKeys : List Nat → List (Option Nat)
  | [] => [none]
  | k :: ks => (k :: ks).map some

/-- Keys of the `dim_time` rows matching a fact row's `date`. -/
def timeKeys (dimt : List TimeRow) (r : SalesRow) : List Nat :=
  (dimt.filter (fun t => t.date = r.date)).map (fun t => t.date_id)

/-- Keys of the `dim_product` rows matching a fact row's `product_id`. -/
def productKeys (dimp : List ProductRow) (r : SalesRow) : List Nat :=
  (dimp.filter (fun p => p.product_id = r.product_id)).map (fun p => p.product_key)

/-- Keys of the `dim_customer` rows matching a fact row's `customer_id`
(the merge of transform.py line 33 is on `customer_id` alone). -/
def customerKeys (dimc : List CustomerRow) (r : SalesRow) : List Nat :=
  (dimc.filter (fun c => c.customer_id = r.customer_id)).map (fun c => c.customer_key)

/-- Measure columns of transform.py lines 35-38 on one merged row:
`revenue = total_amount`, `cost = total_amount * 0.6`,
`profit = revenue - cost`, `profit_margin = profit / revenue * 100`. -/
def mkFactRow (r : SalesRow) (d pk ck : Option Nat) : FactRow :=
  let revenue := r.total_amount
  let cost := r.total_amount * (6 / 10 : ℚ)
  let profit := revenue - cost
  { transaction_id := r.transaction_id, date_id := d, product_key := pk,
    customer_key := ck, quantity := r.quantity, unit_price := r.unit_price,
    revenue := revenue, cost := cost, profit := profit,
    profit_margin := profit / revenue * 100 }

/-- Left merge of transform.py line 31 (`on="date"`): pandas
`merge(..., how="left")` emits one output row per (left row, matching
right row) pair, preserving left order, and one NaN-keyed row for an
unmatched left row. -/
def mergeTime (dimt : List TimeRow) (rows : List SalesRow) : List (SalesRow × Option Nat) :=
  rows.flatMap (fun r => (joinKeys (timeKeys dimt r)).map (fun d => (r, d)))

/-- Left merge of transform.py line 32 (`on="product_id"`). -/
def mergeProduct (dimp : List ProductRow) (l : List (SalesRow × Option Nat)) :
    List (SalesRow × Option Nat × Option Nat) :=
  l.flatMap (fun rd => (joinKeys (productKeys dimp rd.1)).map (fun pk => (rd.1, rd.2, pk)))

/-- Left merge of transform.py line 33 (`on="customer_id"`) followed by
the measure columns of lines 35-38. -/
def mergeCustomer (dimc : List CustomerRow) (l : List (SalesRow × Option Nat × Option Nat)) :
    List FactRow :=
  l.flatMap (fun rdp => (joinKeys (customerKeys dimc rdp.1)).map
    (fun ck => mkFactRow rdp.1 rdp.2.1 rdp.2.2 ck))

/-- The `fact_sales` frame: the three successive left merges and the
measure computation. -/
def factSales (rows : List SalesRow) (dimt : List TimeRow)
    (dimp : List ProductRow) (dimc : List CustomerRow) : List FactRow :=
  mergeCustomer dimc (mergeProduct dimp (mergeTime dimt rows))

/-- The named table set returned by `transform_csv_data`. -/
structure TransformedSales where
  fact_sales : List FactRow
  dim_time : List TimeRow
  dim_product : List ProductRow
  dim_customer : List CustomerRow
deriving DecidableEq

/-- Function `transform_csv_data(df)`: `none` models the uncaught `ValueError`
of the product-category lambda, which aborts before any table is
returned. -/
def transformSales (rows : List SalesRow) : Option TransformedSales :=
  (dimProduct rows).map (fun dimp =>
    let dimt := dimTime rows
    let dimc := dimCustomer rows
    { fact_sales := factSales rows dimt dimp dimc,
      dim_time := dimt, dim_product := dimp, dim_customer := dimc })

/-! ### transform_api_data (transform.py lines 63-96) -/

/-- A row of `dim_user` (address/company columns are absent from the
ingested feed and silently omitted by the column selection). -/
structure UserRow where
  user_key : Nat
  id : Option ℚ
  full_name : Option String
  username : Option String
  email : Option String
  email_domain : Option String
  phone : Option String
  website : Option String
  name_length : Option Nat
deriving DecidableEq

/-- Python `s.split("@")` for the one-character separator `"@"`,
over the character list: `"a@b@c" ↦ ["a","b","c"]`, `"abc" ↦ ["abc"]`. -/
def splitAtSign : List Char → List (List Char)
  | [] => [[]]
  | c :: cs =>
    match splitAtSign cs with
    | [] => [[]]
    | g :: gs => if c = '@' then [] :: g :: gs else (c :: g) :: gs

/-- Column `df_user["email"].str.split("@").str[1]`: the SECOND field of the
split (NaN when the email is null or has no `"@"`). -/
def emailDomain? (e : Option String) : Option String :=
  e.bind (fun s => ((splitAtSign s.data).get? 1).map String.mk)

/-- Function `transform_api_data(df)`: `user_key = range(1, len(df)+1)` with the
derived columns `full_name`, `email_domain`, `name_length`. -/
def transformUsers (rows : List RawUserRow) : List UserRow :=
  (withKeys 1 rows).map (fun p =>
    { user_key := p.1, id := p.2.id, full_name := p.2.name,
      username := p.2.username, email := p.2.email,
      email_domain := emailDomain? p.2.email,
      phone := p.2.phone, website := p.2.website,
      name_length := p.2.name.map (fun s => s.data.length) })

/-- Modelled from the spec: "`email_domain` (substring after \"@\" in
email, empty/null if absent)" — everything after the FIRST `"@"`,
`none` when no `"@"` occurs.  Stated only to compare the spec's wording
with the code's `emailDomain?`. -/
def joinAtSign : List (List Char) → List Char
  | [] => []
  | [g] => g
  | g :: gs => g ++ '@' :: joinAtSign gs

/-- Modelled from the spec: the literal "substring after \"@\"" reading
(see `joinAtSign`). -/
def specEmailDomain? (s : String) : Option String :=
  match splitAtSign s.data with
  | [] => none
  | [_] => none
  | _ :: rest => some (String.mk (joinAtSign rest))

/-! ### Lemmas about the generic helpers -/

theorem dedupFirstByAux_sublist {α β : Type} [DecidableEq β] (key : α → β)
    (seen : List β) (l : List α) : (dedupFirstByAux key seen l).Sublist l := by
  induction l generalizing seen with
  | nil => simp [dedupFirstByAux]
  | cons a as ih =>
    simp only [dedupFirstByAux]
    split
    · exact (ih seen).cons a
    · exact (ih _).cons₂ a

theorem mem_of_mem_dedupFirstByAux {α β : Type} [DecidableEq β] {key : α → β}
    {seen : List β} {l : List α} {x : α} (h : x ∈ dedupFirstByAux key seen l) : x ∈ l :=
  (dedupFirstByAux_sublist key seen l).subset h

theorem key_notMem_seen_of_mem_dedupFirstByAux {α β : Type} [DecidableEq β] {key : α → β}
    {seen : List β} {l : List α} {x : α} (h : x ∈ dedupFirstByAux key seen l) :
    key x ∉ seen := by
  induction l generalizing seen with
  | nil => simp [dedupFirstByAux] at h
  | cons a as ih =>
    simp only [dedupFirstByAux] at h
    split at h
    · exact ih h
    · rcases List.mem_cons.mp h with rfl | h
      · assumption
      · intro hx
        exact ih h (List.mem_cons_of_mem _ hx)

theorem keys_nodup_dedupFirstByAux {α β : Type} [DecidableEq β] (key : α → β)
    (seen : List β) (l : List α) : ((dedupFirstByAux key seen l).map key).Nodup := by
  induction l generalizing seen with
  | nil => simp [dedupFirstByAux]
  | cons a as ih =>
    simp only [dedupFirstByAux]
    split
    · exact ih seen
    · simp only [List.map_cons, List.nodup_cons]
      refine ⟨?_, ih _⟩
      intro hmem
      rcases List.mem_map.mp hmem with ⟨x, hx, hk⟩
      exact key_notMem_seen_of_mem_dedupFirstByAux hx (hk ▸ List.mem_cons_self _ _)

theorem keys_cover_dedupFirstByAux {α β : Type} [DecidableEq β] {key : α → β}
    {l : List α} {a : α} (h : a ∈ l) (seen : List β) :
    key a ∈ seen ∨ key a ∈ (dedupFirstByAux key seen l).map key := by
  induction l generalizing seen with
  | nil => cases h
  | cons b bs ih =>
    simp only [dedupFirstByAux]
    rcases List.mem_cons.mp h with rfl | h
    · split
      · left; assumption
      · right; simp
    · split
      · exact ih h seen
      · rcases ih h (key b :: seen) with hs | hr
        · rcases List.mem_cons.mp hs with heq | hs
          · right; simp [heq]
          · left; exact hs
        · right
          simp only [List.map_cons]
          exact List.mem_cons_of_mem _ hr

theorem head_filter_dedupFirstByAux {α β : Type} [DecidableEq β] {key : α → β}
    {seen : List β} {l : List α} {x : α} (hx : x ∈ dedupFirstByAux key seen l) :
    (l.filter (fun y => key y = key x)).head? = some x := by
  induction l generalizing seen with
  | nil => simp [dedupFirstByAux] at hx
  | cons a as ih =>
    simp only [dedupFirstByAux] at hx
    split at hx
    · have hxs := key_notMem_seen_of_mem_dedupFirstByAux hx
      have hne : ¬ (key a = key x) := fun he => hxs (he ▸ ‹key a ∈ seen›)
      simp only [List.filter_cons, hne, decide_eq_true_eq, if_neg hne]
      exact ih hx
    · rcases List.mem_cons.mp hx with rfl | hx
      · simp [List.filter_cons]
      · have hxs := key_notMem_seen_of_mem_dedupFirstByAux hx
        have hne : ¬ (key a = key x) := fun he => hxs (he ▸ List.mem_cons_self _ _)
        simp only [List.filter_cons, hne, decide_eq_true_eq, if_neg hne]
        exact ih hx

theorem dedupFirstByAux_eq_self {α β : Type} [DecidableEq β] {key : α → β}
    {l : List α} (hn : (l.map key).Nodup) :
    ∀ seen, (∀ a ∈ l, key a ∉ seen) → dedupFirstByAux key seen l = l := by
  induction l with
  | nil => intro seen _; simp [dedupFirstByAux]
  | cons a as ih =>
    intro seen hs
    simp only [List.map_cons, List.nodup_cons] at hn
    simp only [dedupFirstByAux]
    rw [if_neg (hs a (List.mem_cons_self _ _))]
    congr 1
    refine ih hn.2 _ (fun b hb => ?_)
    intro hmem
    rcases List.mem_cons.mp hmem with heq | hseen
    · exact hn.1 (heq ▸ List.mem_map_of_mem key hb)
    · exact hs b (List.mem_cons_of_mem _ hb) hseen

theorem dedupFirstBy_sublist {α β : Type} [DecidableEq β] (key : α → β) (l : List α) :
    (dedupFirstBy key l).Sublist l :=
  dedupFirstByAux_sublist key [] l

theorem keys_nodup_dedupFirstBy {α β : Type} [DecidableEq β] (key : α → β) (l : List α) :
    ((dedupFirstBy key l).map key).Nodup :=
  keys_nodup_dedupFirstByAux key [] l

theorem keys_cover_dedupFirstBy {α β : Type} [DecidableEq β] {key : α → β}
    {l : List α} {a : α} (h : a ∈ l) : key a ∈ (dedupFirstBy key l).map key := by
  rcases @keys_cover_dedupFirstByAux _ _ _ key _ _ h [] with hs | hr
  · cases hs
  · exact hr

theorem head_filter_dedupFirstBy {α β : Type} [DecidableEq β] {key : α → β}
    {l : List α} {x : α} (hx : x ∈ dedupFirstBy key l) :
    (l.filter (fun y => key y = key x)).head? = some x :=
  head_filter_dedupFirstByAux hx

theorem dedupFirstBy_eq_self {α β : Type} [DecidableEq β] {key : α → β}
    {l : List α} (hn : (l.map key).Nodup) : dedupFirstBy key l = l :=
  dedupFirstByAux_eq_self hn [] (by simp)

theorem length_dedupFirstBy {α β : Type} [DecidableEq β] (key : α → β) (l : List α) :
    (dedupFirstBy key l).length = (l.map key).toFinset.card := by
  have hn := keys_nodup_dedupFirstBy key l
  have h1 : ((dedupFirstBy key l).map key).toFinset.card = (dedupFirstBy key l).length := by
    rw [List.toFinset_card_of_nodup hn, List.length_map]
  rw [← h1]
  congr 1
  ext b
  simp only [List.mem_toFinset, List.mem_map]
  constructor
  · rintro ⟨x, hx, rfl⟩
    exact ⟨x, mem_of_mem_dedupFirstByAux hx, rfl⟩
  · rintro ⟨x, hx, rfl⟩
    rcases List.mem_map.mp (@keys_cover_dedupFirstBy _ _ _ key _ _ hx) with ⟨y, hy, hk⟩
    exact ⟨y, hy, hk⟩

theorem withKeys_map_fst {α : Type} (start : Nat) (l : List α) :
    (withKeys start l).map Prod.fst = List.range' start l.length := by
  induction l generalizing start with
  | nil => simp [withKeys]
  | cons a as ih => simp [withKeys, List.range'_succ, ih]

theorem withKeys_map_snd {α : Type} (start : Nat) (l : List α) :
    (withKeys start l).map Prod.snd = l := by
  induction l generalizing start with
  | nil => simp [withKeys]
  | cons a as ih => simp [withKeys, ih]

theorem withKeys_length {α : Type} (start : Nat) (l : List α) :
    (withKeys start l).length = l.length := by
  induction l generalizing start with
  | nil => simp [withKeys]
  | cons a as ih => simp [withKeys, ih]

theorem snd_mem_of_mem_withKeys {α : Type} {start : Nat} {l : List α} {p : Nat × α}
    (h : p ∈ withKeys start l) : p.2 ∈ l := by
  have := List.mem_map_of_mem Prod.snd h
  rwa [withKeys_map_snd] at this

theorem exists_mem_withKeys_of_mem {α : Type} {l : List α} {a : α} (h : a ∈ l)
    (start : Nat) : ∃ k, (k, a) ∈ withKeys start l := by
  induction l generalizing start with
  | nil => cases h
  | cons b bs ih =>
    rcases List.mem_cons.mp h with rfl | h
    · exact ⟨start, List.mem_cons_self _ _⟩
    · rcases ih h (start + 1) with ⟨k, hk⟩
      exact ⟨k, List.mem_cons_of_mem _ hk⟩

theorem mapOption_proj {α β γ : Type} {g : α → Option β} (f1 : β → γ) (f2 : α → γ)
    (hg : ∀ a b, g a = some b → f1 b = f2 a) :
    ∀ (l : List α) (ys : List β), mapOption g l = some ys → ys.map f1 = l.map f2 := by
  intro l
  induction l with
  | nil => intro ys h; simp only [mapOption, Option.some.injEq] at h; simp [← h]
  | cons a as ih =>
    intro ys h
    simp only [mapOption] at h
    cases hga : g a with
    | none => simp [hga] at h
    | some b =>
      cases hmas : mapOption g as with
      | none => simp [hga, hmas] at h
      | some bs =>
        simp only [hga, hmas, Option.some_bind, Option.map_some', Option.some.injEq] at h
        subst h
        simp [hg a b hga, ih bs hmas]

theorem mem_of_mapOption {α β : Type} {g : α → Option β} :
    ∀ {l : List α} {ys : List β}, mapOption g l = some ys → ∀ y ∈ ys, ∃ a ∈ l, g a = some y := by
  intro l
  induction l with
  | nil =>
    intro ys h y hy
    simp only [mapOption, Option.some.injEq] at h
    subst h; cases hy
  | cons a as ih =>
    intro ys h y hy
    simp only [mapOption] at h
    cases hga : g a with
    | none => simp [hga] at h
    | some b =>
      cases hmas : mapOption g as with
      | none => simp [hga, hmas] at h
      | some bs =>
        simp only [hga, hmas, Option.some_bind, Option.map_some', Option.some.injEq] at h
        subst h
        rcases List.mem_cons.mp hy with rfl | hy
        · exact ⟨a, List.mem_cons_self _ _, hga⟩
        · rcases ih hmas y hy with ⟨x, hx, hgx⟩
          exact ⟨x, List.mem_cons_of_mem _ hx, hgx⟩

theorem filter_key_eq_nil {α β : Type} [DecidableEq β] (key : α → β) (l : List α) (b : β)
    (hb : b ∉ l.map key) : l.filter (fun a => key a = b) = [] := by
  rw [List.filter_eq_nil_iff]
  intro a ha
  simp only [decide_eq_true_eq]
  intro h
  exact hb (h ▸ List.mem_map_of_mem key ha)

theorem length_filter_key_eq_one {α β : Type} [DecidableEq β] (key : α → β)
    (l : List α) (b : β) (hn : (l.map key).Nodup) (hb : b ∈ l.map key) :
    (l.filter (fun a => key a = b)).length = 1 := by
  induction l with
  | nil => cases hb
  | cons a as ih =>
    simp only [List.map_cons, List.nodup_cons] at hn
    rcases List.mem_cons.mp hb with heq | hb
    · rw [List.filter_cons, if_pos (by simpa using heq.symm)]
      rw [filter_key_eq_nil key as b (heq ▸ hn.1)]
      rfl
    · have hne : ¬ (key a = b) := by
        intro h
        exact hn.1 (h ▸ hb)
      rw [List.filter_cons, if_neg (by simpa using hne)]
      exact ih hn.2 hb

theorem length_flatMap_one {α β : Type} (f : α → List β) (l : List α)
    (h : ∀ a ∈ l, (f a).length = 1) : (l.flatMap f).length = l.length := by
  induction l with
  | nil => simp
  | cons a as ih =>
    simp only [List.flatMap_cons, List.length_append, List.length_cons]
    rw [h a (List.mem_cons_self _ _), ih (fun x hx => h x (List.mem_cons_of_mem _ hx))]
    omega

theorem joinKeys_length_one {ks : List Nat} (h : ks.length = 1) :
    (joinKeys ks).length = 1 := by
  cases ks with
  | nil => cases h
  | cons k ks => simpa [joinKeys] using h

theorem mem_joinKeys_of_ne_nil {ks : List Nat} {d : Option Nat} (hne : ks ≠ [])
    (hd : d ∈ joinKeys ks) : ∃ k ∈ ks, d = some k := by
  cases ks with
  | nil => exact absurd rfl hne
  | cons k ks =>
    rcases List.mem_map.mp hd with ⟨x, hx, rfl⟩
    exact ⟨x, hx, rfl⟩

/-! ### Invariants of the cleaned Sales output -/

theorem mem_of_mem_salesNullStep {rows : List RawSalesRow} {r : RawSalesRow}
    (h : r ∈ salesNullStep rows) : r ∈ rows := by
  unfold salesNullStep at h
  split at h
  · exact List.mem_of_mem_filter h
  · exact h

theorem salesNullStep_keys {rows : List RawSalesRow} {r : RawSalesRow}
    (h : r ∈ salesNullStep rows) :
    r.transaction_id.isSome ∧ r.product_id.isSome ∧ r.customer_id.isSome := by
  unfold salesNullStep at h
  split at h
  · rcases List.mem_filter.mp h with ⟨-, hp⟩
    simp only [Bool.and_eq_true] at hp
    exact ⟨hp.1.1, hp.1.2, hp.2⟩
  · rename_i hany
    have hnr : ¬ (r.hasNull = true) := fun hr => hany (List.any_eq_true.mpr ⟨r, h, hr⟩)
    simp only [RawSalesRow.hasNull, Bool.or_eq_true, not_or, Bool.not_eq_true,
      Option.isNone_eq_false_iff] at hnr
    exact ⟨hnr.1.1.1.1.1.1.1, hnr.1.1.1.1.1.2, hnr.1.1.1.1.2⟩

theorem salesPipeline_invariant {rows : List RawSalesRow} {r : RawSalesRow}
    (h : r ∈ salesPipeline rows) :
    r.transaction_id.isSome ∧ r.product_id.isSome ∧ r.customer_id.isSome ∧
    r.date.isSome ∧
    ∃ q p, r.quantity = some q ∧ r.unit_price = some p ∧ 0 < q ∧ 0 < p ∧
      r.total_amount = some (q * p) := by
  unfold salesPipeline salesBusinessStep at h
  rcases List.mem_map.mp h with ⟨r0, hr0, rfl⟩
  rcases List.mem_filter.mp hr0 with ⟨hr3, hrule⟩
  unfold salesTypeStep at hr3
  rcases List.mem_filter.mp hr3 with ⟨hr2, htype⟩
  have hr1 : r0 ∈ salesNullStep rows := mem_of_mem_dedupFirstByAux hr2
  have hkeys := salesNullStep_keys hr1
  simp only [Bool.and_eq_true] at htype
  rcases Option.isSome_iff_exists.mp htype.1.1.2 with ⟨q, hq⟩
  rcases Option.isSome_iff_exists.mp htype.1.2 with ⟨p, hp⟩
  simp only [salesRuleFilter, Bool.and_eq_true, decide_eq_true_eq, hq, hp,
    Option.getD_some] at hrule
  refine ⟨hkeys.1, hkeys.2.1, hkeys.2.2, htype.1.1.1, q, p, ?_, ?_, hrule.1, hrule.2, ?_⟩ <;>
    simp [recomputeTotal, hq, hp, Option.map₂]

theorem salesPipeline_tid_nodup (rows : List RawSalesRow) :
    ((salesPipeline rows).map (fun r => r.transaction_id)).Nodup := by
  have hded := keys_nodup_dedupFirstBy (fun r : RawSalesRow => r.transaction_id)
    (salesNullStep rows)
  have hsub : List.Sublist
      ((salesTypeStep (salesDedup (salesNullStep rows))).filter salesRuleFilter)
      (salesDedup (salesNullStep rows)) :=
    (List.filter_sublist _).trans (List.filter_sublist _)
  have hmapsub := hsub.map (fun r : RawSalesRow => r.transaction_id)
  have hnodup := hded.sublist hmapsub
  unfold salesPipeline salesBusinessStep
  rw [List.map_map]
  exact hnodup

theorem recomputeTotal_id {r : RawSalesRow}
    (h : r.total_amount = Option.map₂ (· * ·) r.quantity r.unit_price) :
    recomputeTotal r = r := by
  cases r
  simp only [recomputeTotal] at h ⊢
  simp_all

theorem map_id_of_mem {α : Type} {f : α → α} :
    ∀ {l : List α}, (∀ x ∈ l, f x = x) → l.map f = l := by
  intro l
  induction l with
  | nil => intro _; rfl
  | cons a as ih =>
    intro h
    simp only [List.map_cons, h a (List.mem_cons_self _ _),
      ih (fun x hx => h x (List.mem_cons_of_mem _ hx))]

theorem salesPipeline_idem (rows : List RawSalesRow) :
    salesPipeline (salesPipeline rows) = salesPipeline rows := by
  have h1 : salesNullStep (salesPipeline rows) = salesPipeline rows := by
    unfold salesNullStep
    split
    · apply List.filter_eq_self.mpr
      intro r hr
      have hi := salesPipeline_invariant hr
      simp [hi.1, hi.2.1, hi.2.2.1]
    · rfl
  have h2 : salesDedup (salesPipeline rows) = salesPipeline rows :=
    dedupFirstBy_eq_self (salesPipeline_tid_nodup rows)
  have h3 : salesTypeStep (salesPipeline rows) = salesPipeline rows := by
    apply List.filter_eq_self.mpr
    intro r hr
    have hi := salesPipeline_invariant hr
    rcases hi.2.2.2.2 with ⟨q, p, hq, hp, -, -, ht⟩
    simp [hi.2.2.2.1, hq, hp, ht]
  have h4 : (salesPipeline rows).filter salesRuleFilter = salesPipeline rows := by
    apply List.filter_eq_self.mpr
    intro r hr
    have hi := salesPipeline_invariant hr
    rcases hi.2.2.2.2 with ⟨q, p, hq, hp, hq0, hp0, -⟩
    simp [salesRuleFilter, hq, hp, hq0, hp0]
  have h5 : (salesPipeline rows).map recomputeTotal = salesPipeline rows := by
    apply map_id_of_mem
    intro r hr
    have hi := salesPipeline_invariant hr
    rcases hi.2.2.2.2 with ⟨q, p, hq, hp, -, -, ht⟩
    exact recomputeTotal_id (by simp [hq, hp, ht, Option.map₂])
  show salesBusinessStep (salesTypeStep (salesDedup (salesNullStep (salesPipeline rows))))
    = salesPipeline rows
  rw [h1, h2, h3]
  unfold salesBusinessStep
  rw [h4, h5]

/-! ### Invariants of the cleaned UserProfile output -/

theorem mem_of_mem_userNullStep {rows : List RawUserRow} {r : RawUserRow}
    (h : r ∈ userNullStep rows) : ∃ r0 ∈ rows, r = fillUserDefaults r0 ∨ r = r0 := by
  unfold userNullStep at h
  split at h
  · rcases List.mem_map.mp h with ⟨r0, hr0, rfl⟩
    exact ⟨r0, hr0, Or.inl rfl⟩
  · exact ⟨r, h, Or.inr rfl⟩

theorem userNullStep_optional_filled {rows : List RawUserRow} {r : RawUserRow}
    (h : r ∈ userNullStep rows) : r.phone.isSome ∧ r.website.isSome := by
  unfold userNullStep at h
  split at h
  · rcases List.mem_map.mp h with ⟨r0, -, rfl⟩
    simp [fillUserDefaults]
  · rename_i hany
    have hnr : ¬ (r.hasNull = true) := fun hr => hany (List.any_eq_true.mpr ⟨r, h, hr⟩)
    simp only [RawUserRow.hasNull, Bool.or_eq_true, not_or, Bool.not_eq_true,
      Option.isNone_eq_false_iff] at hnr
    exact ⟨hnr.1.2, hnr.2⟩

theorem userPipeline_invariant {rows : List RawUserRow} {r : RawUserRow}
    (h : r ∈ userPipeline rows) :
    r.id.isSome ∧ r.phone.isSome ∧ r.website.isSome ∧ emailHasAt r = true := by
  unfold userPipeline userBusinessStep at h
  rcases List.mem_filter.mp h with ⟨hr3, hat⟩
  unfold userTypeStep at hr3
  rcases List.mem_filter.mp hr3 with ⟨hr2, hid⟩
  have hr1 : r ∈ userNullStep rows := mem_of_mem_dedupFirstByAux hr2
  have hopt := userNullStep_optional_filled hr1
  exact ⟨hid, hopt.1, hopt.2, hat⟩

theorem userPipeline_id_nodup (rows : List RawUserRow) :
    ((userPipeline rows).map (fun r => r.id)).Nodup := by
  have hded := keys_nodup_dedupFirstBy (fun r : RawUserRow => r.id) (userNullStep rows)
  have hsub : List.Sublist
      ((userTypeStep (userDedup (userNullStep rows))).filter emailHasAt)
      (userDedup (userNullStep rows)) :=
    (List.filter_sublist _).trans (List.filter_sublist _)
  exact hded.sublist (hsub.map (fun r : RawUserRow => r.id))

theorem fillUserDefaults_id {r : RawUserRow} (hp : r.phone.isSome)
    (hw : r.website.isSome) : fillUserDefaults r = r := by
  rcases Option.isSome_iff_exists.mp hp with ⟨x, hx⟩
  rcases Option.isSome_iff_exists.mp hw with ⟨y, hy⟩
  cases r
  simp only at hx hy
  simp [fillUserDefaults, hx, hy]

theorem userPipeline_idem (rows : List RawUserRow) :
    userPipeline (userPipeline rows) = userPipeline rows := by
  have h1 : userNullStep (userPipeline rows) = userPipeline rows := by
    unfold userNullStep
    split
    · apply map_id_of_mem
      intro r hr
      have hi := userPipeline_invariant hr
      exact fillUserDefaults_id hi.2.1 hi.2.2.1
    · rfl
  have h2 : userDedup (userPipeline rows) = userPipeline rows :=
    dedupFirstBy_eq_self (userPipeline_id_nodup rows)
  have h3 : userTypeStep (userPipeline rows) = userPipeline rows := by
    apply List.filter_eq_self.mpr
    intro r hr
    exact (userPipeline_invariant hr).1
  have h4 : userBusinessStep (userPipeline rows) = userPipeline rows := by
    apply List.filter_eq_self.mpr
    intro r hr
    exact (userPipeline_invariant hr).2.2.2
  show userBusinessStep (userTypeStep (userDedup (userNullStep (userPipeline rows))))
    = userPipeline rows
  rw [h1, h2, h3, h4]

/-! ### Shape of the validate_data results -/

theorem validateSales_ok_iff {cols : List String} {rows : List RawSalesRow}
    {out : List RawSalesRow} {rep : ValidationReport}
    (h : validateSales cols rows = .ok (out, rep)) :
    salesSchemaMissing cols = [] ∧ out = salesPipeline rows ∧
    rep.initial_count = rows.length ∧ rep.final_count = out.length ∧ rep.errors = [] := by
  unfold validateSales at h
  split at h
  · cases h
  · rename_i hmiss
    rw [Except.ok.injEq, Prod.mk.injEq] at h
    rcases h with ⟨hout, hrep⟩
    refine ⟨not_not.mp hmiss, hout.symm, ?_, ?_, ?_⟩
    · rw [← hrep]
    · rw [← hrep, ← hout]
    · rw [← hrep]

theorem validateSales_ok_of_missing_nil {cols : List String} (rows : List RawSalesRow)
    (h : salesSchemaMissing cols = []) :
    ∃ rep, validateSales cols rows = .ok (salesPipeline rows, rep) ∧
      rep.initial_count = rows.length ∧ rep.final_count = (salesPipeline rows).length := by
  unfold validateSales
  rw [if_neg (by simp [h])]
  exact ⟨_, rfl, rfl, rfl⟩

theorem validateSales_error_of_missing {cols : List String} (rows : List RawSalesRow)
    (h : salesSchemaMissing cols ≠ []) :
    validateSales cols rows = .error
      ("Validation failed for csv: " ++
        ("Missing required columns: " ++ toString (salesSchemaMissing cols)),
       { source_type := "csv", initial_count := rows.length, final_count := 0,
         checks := [],
         errors := ["Missing required columns: " ++ toString (salesSchemaMissing cols)],
         warnings := [] }) := by
  unfold validateSales
  rw [if_pos h]

theorem validateUsers_ok_iff {cols : List String} {rows : List RawUserRow}
    {out : List RawUserRow} {rep : ValidationReport}
    (h : validateUsers cols rows = .ok (out, rep)) :
    userSchemaMissing cols = [] ∧ out = userPipeline rows ∧
    rep.initial_count = rows.length ∧ rep.final_count = out.length ∧ rep.errors = [] := by
  unfold validateUsers at h
  split at h
  · cases h
  · rename_i hmiss
    rw [Except.ok.injEq, Prod.mk.injEq] at h
    rcases h with ⟨hout, hrep⟩
    refine ⟨not_not.mp hmiss, hout.symm, ?_, ?_, ?_⟩
    · rw [← hrep]
    · rw [← hrep, ← hout]
    · rw [← hrep]

theorem validateUsers_ok_of_missing_nil {cols : List String} (rows : List RawUserRow)
    (h : userSchemaMissing cols = []) :
    ∃ rep, validateUsers cols rows = .ok (userPipeline rows, rep) ∧
      rep.initial_count = rows.length ∧ rep.final_count = (userPipeline rows).length := by
  unfold validateUsers
  rw [if_neg (by simp [h])]
  exact ⟨_, rfl, rfl, rfl⟩

theorem validateUsers_error_of_missing {cols : List String} (rows : List RawUserRow)
    (h : userSchemaMissing cols ≠ []) :
    validateUsers cols rows = .error
      ("Validation failed for api: " ++
        ("Missing required columns: " ++ toString (userSchemaMissing cols)),
       { source_type := "api", initial_count := rows.length, final_count := 0,
         checks := [],
         errors := ["Missing required columns: " ++ toString (userSchemaMissing cols)],
         warnings := [] }) := by
  unfold validateUsers
  rw [if_pos h]

/-! ### Shape of the transformed star schema -/

theorem dimTime_dates (rows : List SalesRow) :
    (dimTime rows).map (fun t => t.date) = dedupFirstBy id (rows.map (fun r => r.date)) := by
  unfold dimTime
  rw [List.map_map]
  exact withKeys_map_snd 1 _

theorem dimTime_ids (rows : List SalesRow) :
    (dimTime rows).map (fun t => t.date_id) = List.range' 1 (dimTime rows).length := by
  unfold dimTime
  rw [List.map_map, List.length_map, withKeys_length]
  exact withKeys_map_fst 1 _

theorem dimTime_dates_nodup (rows : List SalesRow) :
    ((dimTime rows).map (fun t => t.date)).Nodup := by
  rw [dimTime_dates]
  have := keys_nodup_dedupFirstBy (id : Int → Int) (rows.map (fun r => r.date))
  rwa [List.map_id] at this

theorem dimTime_cover {rows : List SalesRow} {r : SalesRow} (h : r ∈ rows) :
    ∃ t ∈ dimTime rows, t.date = r.date := by
  have hmem : r.date ∈ (dimTime rows).map (fun t => t.date) := by
    rw [dimTime_dates]
    have := @keys_cover_dedupFirstBy _ _ _ (id : Int → Int) _ _
      (List.mem_map_of_mem (fun r : SalesRow => r.date) h)
    rwa [List.map_id] at this
  rcases List.mem_map.mp hmem with ⟨t, ht, hd⟩
  exact ⟨t, ht, hd⟩

theorem dimTime_length (rows : List SalesRow) :
    (dimTime rows).length = (rows.map (fun r => r.date)).toFinset.card := by
  unfold dimTime
  rw [List.length_map, withKeys_length]
  rw [length_dedupFirstBy]
  congr 1
  rw [List.map_id]

theorem dimCustomer_pairs (rows : List SalesRow) :
    (dimCustomer rows).map (fun c => (c.customer_id, c.region)) =
      dedupFirstBy id (rows.map (fun r => (r.customer_id, r.region))) := by
  unfold dimCustomer
  rw [List.map_map]
  exact withKeys_map_snd 1 _

theorem dimCustomer_keys (rows : List SalesRow) :
    (dimCustomer rows).map (fun c => c.customer_key) =
      List.range' 1 (dimCustomer rows).length := by
  unfold dimCustomer
  rw [List.map_map, List.length_map, withKeys_length]
  exact withKeys_map_fst 1 _

theorem dimCustomer_pairs_nodup (rows : List SalesRow) :
    ((dimCustomer rows).map (fun c => (c.customer_id, c.region))).Nodup := by
  rw [dimCustomer_pairs]
  have := keys_nodup_dedupFirstBy (id : String × Option String → String × Option String)
    (rows.map (fun r => (r.customer_id, r.region)))
  rwa [List.map_id] at this

theorem dimCustomer_cover {rows : List SalesRow} {r : SalesRow} (h : r ∈ rows) :
    ∃ c ∈ dimCustomer rows, c.customer_id = r.customer_id ∧ c.region = r.region := by
  have hmem : (r.customer_id, r.region) ∈
      (dimCustomer rows).map (fun c => (c.customer_id, c.region)) := by
    rw [dimCustomer_pairs]
    have := @keys_cover_dedupFirstBy _ _ _
      (id : String × Option String → String × Option String) _ _
      (List.mem_map_of_mem (fun r : SalesRow => (r.customer_id, r.region)) h)
    rwa [List.map_id] at this
  rcases List.mem_map.mp hmem with ⟨c, hc, hp⟩
  rw [Prod.mk.injEq] at hp
  exact ⟨c, hc, hp.1, hp.2⟩

theorem dimCustomer_pair_mem {rows : List SalesRow} {c : CustomerRow}
    (h : c ∈ dimCustomer rows) :
    ∃ r ∈ rows, r.customer_id = c.customer_id ∧ r.region = c.region := by
  have hmem : (c.customer_id, c.region) ∈
      (dimCustomer rows).map (fun c => (c.customer_id, c.region)) :=
    List.mem_map_of_mem _ h
  rw [dimCustomer_pairs] at hmem
  have := mem_of_mem_dedupFirstByAux hmem
  rcases List.mem_map.mp this with ⟨r, hr, hp⟩
  rw [Prod.mk.injEq] at hp
  exact ⟨r, hr, hp.1, hp.2⟩

theorem dimCustomer_length (rows : List SalesRow) :
    (dimCustomer rows).length =
      (rows.map (fun r => (r.customer_id, r.region))).toFinset.card := by
  unfold dimCustomer
  rw [List.length_map, withKeys_length, length_dedupFirstBy]
  congr 1
  rw [List.map_id]

theorem dimProduct_ids {rows : List SalesRow} {dimp : List ProductRow}
    (h : dimProduct rows = some dimp) :
    dimp.map (fun p => p.product_id) =
      dedupFirstBy id (rows.map (fun r => r.product_id)) := by
  unfold dimProduct at h
  have hproj := mapOption_proj (fun p : ProductRow => p.product_id)
    (fun q : Nat × String => q.2) (fun a b hb => by
      rcases Option.map_eq_some'.mp hb with ⟨cat, -, rfl⟩
      rfl) _ _ h
  rw [hproj]
  exact withKeys_map_snd 1 _

theorem dimProduct_keys {rows : List SalesRow} {dimp : List ProductRow}
    (h : dimProduct rows = some dimp) :
    dimp.map (fun p => p.product_key) = List.range' 1 dimp.length := by
  unfold dimProduct at h
  have hproj := mapOption_proj (fun p : ProductRow => p.product_key)
    (fun q : Nat × String => q.1) (fun a b hb => by
      rcases Option.map_eq_some'.mp hb with ⟨cat, -, rfl⟩
      rfl) _ _ h
  have hlen := mapOption_proj (fun _ : ProductRow => Unit.unit)
    (fun _ : Nat × String => Unit.unit) (fun a b _ => rfl) _ _ h
  have hlen' : dimp.length = (withKeys 1 (dedupFirstBy id
      (rows.map (fun r => r.product_id)))).length := by
    have := congrArg List.length hlen
    simpa using this
  rw [hproj, hlen', withKeys_length]
  exact withKeys_map_fst 1 _

theorem dimProduct_ids_nodup {rows : List SalesRow} {dimp : List ProductRow}
    (h : dimProduct rows = some dimp) :
    (dimp.map (fun p => p.product_id)).Nodup := by
  rw [dimProduct_ids h]
  have := keys_nodup_dedupFirstBy (id : String → String) (rows.map (fun r => r.product_id))
  rwa [List.map_id] at this

theorem dimProduct_cover {rows : List SalesRow} {dimp : List ProductRow}
    (h : dimProduct rows = some dimp) {r : SalesRow} (hr : r ∈ rows) :
    ∃ p ∈ dimp, p.product_id = r.product_id := by
  have hmem : r.product_id ∈ dimp.map (fun p => p.product_id) := by
    rw [dimProduct_ids h]
    have := @keys_cover_dedupFirstBy _ _ _ (id : String → String) _ _
      (List.mem_map_of_mem (fun r : SalesRow => r.product_id) hr)
    rwa [List.map_id] at this
  rcases List.mem_map.mp hmem with ⟨p, hp, hpid⟩
  exact ⟨p, hp, hpid⟩

theorem dimProduct_mem {rows : List SalesRow} {dimp : List ProductRow}
    (h : dimProduct rows = some dimp) {p : ProductRow} (hp : p ∈ dimp) :
    p.product_id ∈ rows.map (fun r => r.product_id) ∧
      productCategory? p.product_id = some p.product_category := by
  unfold dimProduct at h
  rcases mem_of_mapOption h p hp with ⟨a, ha, hga⟩
  rcases Option.map_eq_some'.mp hga with ⟨cat, hcat, rfl⟩
  refine ⟨?_, by simpa using hcat⟩
  have := snd_mem_of_mem_withKeys ha
  exact mem_of_mem_dedupFirstByAux this

/-! ### The left merges of the fact table -/

theorem mem_merge_stage {α γ : Type} {l : List α} {f : α → List Nat} {g : α → Option Nat → γ}
    {c : γ} (h : c ∈ l.flatMap (fun a => (joinKeys (f a)).map (g a))) :
    ∃ a ∈ l, ∃ d, c = g a d ∧ (∀ k, d = some k → k ∈ f a) ∧
      (f a ≠ [] → ∃ k, d = some k ∧ k ∈ f a) := by
  rcases List.mem_flatMap.mp h with ⟨a, ha, hc⟩
  rcases List.mem_map.mp hc with ⟨d, hd, rfl⟩
  refine ⟨a, ha, d, rfl, ?_, ?_⟩
  · intro k hk
    cases hfa : f a with
    | nil =>
      rw [hfa] at hd
      simp only [joinKeys, List.mem_singleton] at hd
      rw [hd] at hk
      cases hk
    | cons k0 ks =>
      rcases mem_joinKeys_of_ne_nil (by simp [hfa]) hd with ⟨k1, hk1, hdk⟩
      rw [hdk] at hk
      cases hk
      rw [← hfa]
      exact hk1
  · intro hne
    rcases mem_joinKeys_of_ne_nil hne hd with ⟨k, hk, rfl⟩
    exact ⟨k, rfl, hk⟩

theorem length_merge_stage {α γ : Type} (l : List α) (f : α → List Nat)
    (g : α → Option Nat → γ) (h : ∀ a ∈ l, (f a).length = 1) :
    (l.flatMap (fun a => (joinKeys (f a)).map (g a))).length = l.length :=
  length_flatMap_one _ _ (fun a ha => by
    rw [List.length_map]
    exact joinKeys_length_one (h a ha))

theorem mem_timeKeys {dimt : List TimeRow} {r : SalesRow} {k : Nat}
    (h : k ∈ timeKeys dimt r) : ∃ t ∈ dimt, t.date_id = k ∧ t.date = r.date := by
  rcases List.mem_map.mp h with ⟨t, ht, rfl⟩
  rcases List.mem_filter.mp ht with ⟨htd, hdate⟩
  exact ⟨t, htd, rfl, by simpa using hdate⟩

theorem mem_productKeys {dimp : List ProductRow} {r : SalesRow} {k : Nat}
    (h : k ∈ productKeys dimp r) :
    ∃ p ∈ dimp, p.product_key = k ∧ p.product_id = r.product_id := by
  rcases List.mem_map.mp h with ⟨p, hp, rfl⟩
  rcases List.mem_filter.mp hp with ⟨hpd, hpid⟩
  exact ⟨p, hpd, rfl, by simpa using hpid⟩

theorem mem_customerKeys {dimc : List CustomerRow} {r : SalesRow} {k : Nat}
    (h : k ∈ customerKeys dimc r) :
    ∃ c ∈ dimc, c.customer_key = k ∧ c.customer_id = r.customer_id := by
  rcases List.mem_map.mp h with ⟨c, hc, rfl⟩
  rcases List.mem_filter.mp hc with ⟨hcd, hcid⟩
  exact ⟨c, hcd, rfl, by simpa using hcid⟩

theorem timeKeys_ne_nil {rows : List SalesRow} {r : SalesRow} (hr : r ∈ rows) :
    timeKeys (dimTime rows) r ≠ [] := by
  rcases dimTime_cover hr with ⟨t, ht, hd⟩
  unfold timeKeys
  intro hnil
  rw [List.map_eq_nil_iff, List.filter_eq_nil_iff] at hnil
  exact hnil t ht (by simpa using hd)

theorem productKeys_ne_nil {rows : List SalesRow} {dimp : List ProductRow}
    (h : dimProduct rows = some dimp) {r : SalesRow} (hr : r ∈ rows) :
    productKeys dimp r ≠ [] := by
  rcases dimProduct_cover h hr with ⟨p, hp, hpid⟩
  unfold productKeys
  intro hnil
  rw [List.map_eq_nil_iff, List.filter_eq_nil_iff] at hnil
  exact hnil p hp (by simpa using hpid)

theorem customerKeys_ne_nil {rows : List SalesRow} {r : SalesRow} (hr : r ∈ rows) :
    customerKeys (dimCustomer rows) r ≠ [] := by
  rcases dimCustomer_cover hr with ⟨c, hc, hcid, -⟩
  unfold customerKeys
  intro hnil
  rw [List.map_eq_nil_iff, List.filter_eq_nil_iff] at hnil
  exact hnil c hc (by simpa using hcid)

theorem timeKeys_length_one {rows : List SalesRow} {r : SalesRow} (hr : r ∈ rows) :
    (timeKeys (dimTime rows) r).length = 1 := by
  unfold timeKeys
  rw [List.length_map]
  apply length_filter_key_eq_one (fun t : TimeRow => t.date) _ _ (dimTime_dates_nodup rows)
  rcases dimTime_cover hr with ⟨t, ht, hd⟩
  rw [← hd]
  exact List.mem_map_of_mem _ ht

theorem productKeys_length_one {rows : List SalesRow} {dimp : List ProductRow}
    (h : dimProduct rows = some dimp) {r : SalesRow} (hr : r ∈ rows) :
    (productKeys dimp r).length = 1 := by
  unfold productKeys
  rw [List.length_map]
  apply length_filter_key_eq_one (fun p : ProductRow => p.product_id) _ _
    (dimProduct_ids_nodup h)
  rcases dimProduct_cover h hr with ⟨p, hp, hpid⟩
  rw [← hpid]
  exact List.mem_map_of_mem _ hp

theorem dimCustomer_cid_nodup {rows : List SalesRow}
    (hreg : ∀ r ∈ rows, ∀ r2 ∈ rows, r.customer_id = r2.customer_id →
      r.region = r2.region) :
    ((dimCustomer rows).map (fun c => c.customer_id)).Nodup := by
  have hpairs := dimCustomer_pairs_nodup rows
  have hnd : (dimCustomer rows).Nodup := hpairs.of_map _
  apply hnd.map_on
  intro c1 hc1 c2 hc2 hcid
  rcases dimCustomer_pair_mem hc1 with ⟨r1, hr1, hrc1, hrg1⟩
  rcases dimCustomer_pair_mem hc2 with ⟨r2, hr2, hrc2, hrg2⟩
  have hreq : r1.region = r2.region :=
    hreg r1 hr1 r2 hr2 (by rw [hrc1, hrc2, hcid])
  have hpair : (fun c : CustomerRow => (c.customer_id, c.region)) c1 =
      (fun c : CustomerRow => (c.customer_id, c.region)) c2 := by
    simp only [Prod.mk.injEq]
    exact ⟨hcid, by rw [← hrg1, ← hrg2, hreq]⟩
  exact List.inj_on_of_nodup_map hpairs hc1 hc2 hpair

theorem customerKeys_length_one {rows : List SalesRow}
    (hreg : ∀ r ∈ rows, ∀ r2 ∈ rows, r.customer_id = r2.customer_id →
      r.region = r2.region) {r : SalesRow} (hr : r ∈ rows) :
    (customerKeys (dimCustomer rows) r).length = 1 := by
  unfold customerKeys
  rw [List.length_map]
  apply length_filter_key_eq_one (fun c : CustomerRow => c.customer_id) _ _
    (dimCustomer_cid_nodup hreg)
  rcases dimCustomer_cover hr with ⟨c, hc, hcid, -⟩
  rw [← hcid]
  exact List.mem_map_of_mem _ hc

theorem mem_mergeTime_fst {dimt : List TimeRow} {rows : List SalesRow}
    {x : SalesRow × Option Nat} (h : x ∈ mergeTime dimt rows) : x.1 ∈ rows := by
  unfold mergeTime at h
  rcases mem_merge_stage h with ⟨r, hr, d, rfl, -, -⟩
  exact hr

theorem mem_mergeProduct_fst {dimp : List ProductRow} {l : List (SalesRow × Option Nat)}
    {y : SalesRow × Option Nat × Option Nat} (h : y ∈ mergeProduct dimp l) :
    ∃ x ∈ l, y.1 = x.1 := by
  unfold mergeProduct at h
  rcases mem_merge_stage h with ⟨rd, hrd, pk, rfl, -, -⟩
  exact ⟨rd, hrd, rfl⟩

theorem mem_factSales {rows : List SalesRow} {dimt : List TimeRow}
    {dimp : List ProductRow} {dimc : List CustomerRow} {f : FactRow}
    (h : f ∈ factSales rows dimt dimp dimc) :
    ∃ r ∈ rows, ∃ d pk ck, f = mkFactRow r d pk ck := by
  unfold factSales mergeCustomer at h
  rcases mem_merge_stage h with ⟨rdp, hrdp, ck, rfl, -, -⟩
  unfold mergeProduct at hrdp
  rcases mem_merge_stage hrdp with ⟨rd, hrd, pk, rfl, -, -⟩
  unfold mergeTime at hrd
  rcases mem_merge_stage hrd with ⟨r, hr, d, rfl, -, -⟩
  exact ⟨r, hr, d, pk, ck, rfl⟩

theorem factSales_resolves {rows : List SalesRow} {dimp : List ProductRow}
    (hp : dimProduct rows = some dimp) {f : FactRow}
    (h : f ∈ factSales rows (dimTime rows) dimp (dimCustomer rows)) :
    (∃ t ∈ dimTime rows, f.date_id = some t.date_id) ∧
    (∃ p ∈ dimp, f.product_key = some p.product_key) ∧
    (∃ c ∈ dimCustomer rows, f.customer_key = some c.customer_key) := by
  unfold factSales mergeCustomer at h
  rcases mem_merge_stage h with ⟨rdp, hrdp, ck, rfl, -, hckres⟩
  unfold mergeProduct at hrdp
  rcases mem_merge_stage hrdp with ⟨rd, hrd, pk, rfl, -, hpkres⟩
  unfold mergeTime at hrd
  rcases mem_merge_stage hrd with ⟨r, hr, d, rfl, -, hdres⟩
  refine ⟨?_, ?_, ?_⟩
  · rcases hdres (timeKeys_ne_nil hr) with ⟨k, rfl, hk⟩
    rcases mem_timeKeys hk with ⟨t, ht, hkid, -⟩
    exact ⟨t, ht, by simp [mkFactRow, hkid]⟩
  · rcases hpkres (productKeys_ne_nil hp hr) with ⟨k, rfl, hk⟩
    rcases mem_productKeys hk with ⟨p, hpd, hkid, -⟩
    exact ⟨p, hpd, by simp [mkFactRow, hkid]⟩
  · rcases hckres (customerKeys_ne_nil hr) with ⟨k, rfl, hk⟩
    rcases mem_customerKeys hk with ⟨c, hcd, hkid, -⟩
    exact ⟨c, hcd, by simp [mkFactRow, hkid]⟩

theorem factSales_length {rows : List SalesRow} {dimp : List ProductRow}
    (hp : dimProduct rows = some dimp)
    (hreg : ∀ r ∈ rows, ∀ r2 ∈ rows, r.customer_id = r2.customer_id →
      r.region = r2.region) :
    (factSales rows (dimTime rows) dimp (dimCustomer rows)).length = rows.length := by
  unfold factSales mergeCustomer
  rw [length_merge_stage _ _ _ (fun rdp hrdp => by
    rcases mem_mergeProduct_fst hrdp with ⟨x, hx, hfst⟩
    rw [hfst]
    exact customerKeys_length_one hreg (mem_mergeTime_fst hx))]
  unfold mergeProduct
  rw [length_merge_stage _ _ _ (fun rd hrd => by
    exact productKeys_length_one hp (mem_mergeTime_fst hrd))]
  unfold mergeTime
  exact length_merge_stage _ _ _ (fun r hr => timeKeys_length_one hr)

theorem transformSales_parts {rows : List SalesRow} {t : TransformedSales}
    (h : transformSales rows = some t) :
    dimProduct rows = some t.dim_product ∧ t.dim_time = dimTime rows ∧
    t.dim_customer = dimCustomer rows ∧
    t.fact_sales = factSales rows (dimTime rows) t.dim_product (dimCustomer rows) := by
  unfold transformSales at h
  rcases Option.map_eq_some'.mp h with ⟨dimp, hdp, rfl⟩
  exact ⟨hdp, rfl, rfl, rfl⟩

theorem factSales_financials {rows : List SalesRow} {dimt : List TimeRow}
    {dimp : List ProductRow} {dimc : List CustomerRow} {f : FactRow}
    (h : f ∈ factSales rows dimt dimp dimc)
    (hrows : ∀ r ∈ rows, r.total_amount = r.quantity * r.unit_price) :
    f.revenue = f.quantity * f.unit_price ∧ f.cost = (6 / 10 : ℚ) * f.revenue ∧
    f.profit = f.revenue - f.cost := by
  rcases mem_factSales h with ⟨r, hr, d, pk, ck, rfl⟩
  have ht := hrows r hr
  refine ⟨?_, ?_, ?_⟩ <;> simp [mkFactRow, ht, mul_comm]

theorem clean_total_eq {rows : List RawSalesRow} {clean : List SalesRow}
    (hc : mapOption toCleanSales (salesPipeline rows) = some clean) :
    ∀ r ∈ clean, r.total_amount = r.quantity * r.unit_price := by
  intro r hr
  rcases mem_of_mapOption hc r hr with ⟨r0, hr0, htc⟩
  have hi := salesPipeline_invariant hr0
  rcases Option.isSome_iff_exists.mp hi.1 with ⟨tid, htid⟩
  rcases Option.isSome_iff_exists.mp hi.2.1 with ⟨pid, hpid⟩
  rcases Option.isSome_iff_exists.mp hi.2.2.1 with ⟨cid, hcid⟩
  rcases Option.isSome_iff_exists.mp hi.2.2.2.1 with ⟨d, hd⟩
  rcases hi.2.2.2.2 with ⟨q, p, hq, hp, -, -, hta⟩
  unfold toCleanSales at htc
  rw [htid, hd, hpid, hcid, hq, hp, hta] at htc
  simp only [Option.some.injEq] at htc
  subst htc
  rfl

/-! ### The product-category derivation -/

theorem stripPROD_cons_ne (c : Char) (cs : List Char) (h : c ≠ 'P') :
    stripPROD (c :: cs) = c :: stripPROD cs := by
  rw [stripPROD.eq_def]
  split
  · rename_i heq
    injection heq with h1 h2
    exact absurd h1 h
  · rename_i heq
    injection heq with h1 h2
    rw [h1, h2]
  · rename_i heq
    cases heq

theorem stripPROD_digits (ds : List Char) (h : ds.all Char.isDigit) :
    stripPROD ds = ds := by
  induction ds with
  | nil => rfl
  | cons c cs ih =>
    simp only [List.all_cons, Bool.and_eq_true] at h
    have hne : c ≠ 'P' := by
      intro hc
      rw [hc] at h
      simp [Char.isDigit] at h
    rw [stripPROD_cons_ne c cs hne, ih h.2]

theorem productCategory_of_digits {s : String} (hne : s.data ≠ [])
    (hdig : s.data.all Char.isDigit) :
    productCategory? ("PROD" ++ s) =
      some ("Category_" ++ toString (digitsToNat s.data % 3 + 1)) := by
  unfold productCategory?
  have hdata : ("PROD" ++ s).data = 'P' :: 'R' :: 'O' :: 'D' :: s.data := by
    rw [String.data_append]
    rfl
  rw [hdata]
  have hstrip : stripPROD ('P' :: 'R' :: 'O' :: 'D' :: s.data) = s.data := by
    show stripPROD s.data = s.data
    exact stripPROD_digits s.data hdig
  rw [hstrip]
  unfold pyInt?
  rw [if_pos ⟨hne, hdig⟩]
  rfl

/-! ### The user dimension -/

theorem transformUsers_keys (rows : List RawUserRow) :
    (transformUsers rows).map (fun u => u.user_key) = List.range' 1 rows.length := by
  unfold transformUsers
  rw [List.map_map]
  have h : ((fun u : UserRow => u.user_key) ∘ fun p : Nat × RawUserRow =>
      ({ user_key := p.1, id := p.2.id, full_name := p.2.name,
         username := p.2.username, email := p.2.email,
         email_domain := emailDomain? p.2.email,
         phone := p.2.phone, website := p.2.website,
         name_length := p.2.name.map (fun s => s.data.length) } : UserRow)) =
      fun p : Nat × RawUserRow => p.1 := rfl
  rw [h]
  exact withKeys_map_fst 1 rows

theorem transformUsers_length (rows : List RawUserRow) :
    (transformUsers rows).length = rows.length := by
  unfold transformUsers
  rw [List.length_map, withKeys_length]

theorem mem_transformUsers {rows : List RawUserRow} {u : UserRow}
    (h : u ∈ transformUsers rows) :
    ∃ r ∈ rows, u.email = r.email ∧ u.email_domain = emailDomain? r.email := by
  unfold transformUsers at h
  rcases List.mem_map.mp h with ⟨p, hp, rfl⟩
  exact ⟨p.2, snd_mem_of_mem_withKeys hp, rfl, rfl⟩

theorem transformUsers_email_domain {rows : List RawUserRow} {u : UserRow}
    (h : u ∈ transformUsers rows) : u.email_domain = emailDomain? u.email := by
  rcases mem_transformUsers h with ⟨r, -, he, hd⟩
  rw [he, hd]

/-! ### Concrete frames used by scenarios, counterexamples and witnesses -/

/-- The column set of the ingested Sales csv. -/
def salesCols : List String :=
  ["transaction_id", "date", "product_id", "customer_id",
   "quantity", "unit_price", "total_amount", "region"]

/-- The column set of the ingested UserProfile feed. -/
def userCols : List String := ["id", "name", "username", "email", "phone", "website"]

/-- The spec's business-rule scenario input: TXN001 with a negative
quantity, TXN002 with an untrusted ingested total of 999. -/
def exBadQtyInput : List RawSalesRow :=
  [ { transaction_id := some "TXN001", date := some 1, product_id := some "PROD1",
      customer_id := some "C1", quantity := some (-1), unit_price := some 10,
      total_amount := some (-10), region := some "North" },
    { transaction_id := some "TXN002", date := some 2, product_id := some "PROD2",
      customer_id := some "C2", quantity := some 2, unit_price := some 10,
      total_amount := some 999, region := some "South" } ]

/-- The cleaned output of validating `exBadQtyInput`. -/
def exBadQtyOut : List RawSalesRow :=
  [{ transaction_id := some "TXN002", date := some 2, product_id := some "PROD2",
     customer_id := some "C2", quantity := some 2, unit_price := some 10,
     total_amount := some 20, region := some "South" }]

/-- The report of validating `exBadQtyInput`. -/
def exBadQtyRep : ValidationReport :=
  { source_type := "csv", initial_count := 2, final_count := 1,
    checks := [⟨"Schema Validation", "PASSED", ""⟩,
               ⟨"Null Check", "PASSED", "No null values found"⟩,
               ⟨"Deduplication", "PASSED", "Removed 0 duplicate records"⟩,
               ⟨"Type Enforcement", "PASSED", ""⟩,
               ⟨"Business Rules", "PASSED",
                "Removed 1 rows with invalid quantity/price; recalculated totals"⟩],
    errors := [], warnings := [] }

theorem exBadQty_eval : validateSales salesCols exBadQtyInput = .ok (exBadQtyOut, exBadQtyRep) := by
  simp [validateSales, salesSchemaMissing, requiredSalesColumns, salesCols,
    salesBusinessStep, salesTypeStep, salesDedup, salesNullStep,
    dropNullKeySales, dedupFirstBy, dedupFirstByAux, salesRuleFilter, RawSalesRow.hasNull,
    exBadQtyInput, exBadQtyOut, exBadQtyRep]
  constructor
  · simp [recomputeTotal, Option.map₂]
    norm_num
  · exact ⟨rfl, rfl⟩

/-- Rows with a duplicated transaction id for the C5 witness. -/
def exDupInput : List RawSalesRow :=
  [ { transaction_id := some "TXN001", date := some 1, product_id := some "PROD1",
      customer_id := some "C1", quantity := some 5, unit_price := some 3,
      total_amount := some 15, region := some "North" },
    { transaction_id := some "TXN001", date := some 2, product_id := some "PROD2",
      customer_id := some "C2", quantity := some 1, unit_price := some 4,
      total_amount := some 4, region := some "South" } ]

/-! ### Claim C5 -/

/-- C5: for every record set, the deduplication check — keyed by
`transaction_id` for Sales and by `id` for UserProfile — yields exactly
K rows where K is the number of distinct key values, and every surviving
row is the first occurrence of its key in the original row order (it is
the head of the sub-list of rows carrying its key). -/
theorem C5_dedup_first_occurrence (l : List RawSalesRow) (m : List RawUserRow) :
    ((salesDedup l).length = (l.map (fun r => r.transaction_id)).toFinset.card ∧
      ∀ r ∈ salesDedup l,
        (l.filter (fun x => x.transaction_id = r.transaction_id)).head? = some r) ∧
    ((userDedup m).length = (m.map (fun r => r.id)).toFinset.card ∧
      ∀ r ∈ userDedup m,
        (m.filter (fun x => x.id = r.id)).head? = some r) :=
  ⟨⟨length_dedupFirstBy _ _, fun _ hr => head_filter_dedupFirstBy hr⟩,
   ⟨length_dedupFirstBy _ _, fun _ hr => head_filter_dedupFirstBy hr⟩⟩

/-- Witness for C5 on a concrete duplicated input. -/
theorem C5_dedup_first_occurrence_witness :
    (salesDedup exDupInput).length =
        (exDupInput.map (fun r => r.transaction_id)).toFinset.card ∧
    (exDupInput.filter (fun x => x.transaction_id =
        (exDupInput.get ⟨0, by decide⟩).transaction_id)).head? =
      some (exDupInput.get ⟨0, by decide⟩) :=
  ⟨(C5_dedup_first_occurrence exDupInput []).1.1,
   (C5_dedup_first_occurrence exDupInput []).1.2 _ (by decide)⟩

/-! ### Claim C8 -/

/-- C8: on any input missing a required column for its source kind,
validate raises — the result is the `.error` arm, which carries no
cleaned record set (no partial cleaning) — and the persisted report
holds the schema error, has run no checks, and its status is FAILED
(not Passed). -/
theorem C8_schema_fatal :
    (∀ (cols : List String) (rows : List RawSalesRow), salesSchemaMissing cols ≠ [] →
      ∃ msg rep, validateSales cols rows = .error (msg, rep) ∧
        rep.errors ≠ [] ∧ rep.status = "FAILED" ∧ rep.checks = []) ∧
    (∀ (cols : List String) (rows : List RawUserRow), userSchemaMissing cols ≠ [] →
      ∃ msg rep, validateUsers cols rows = .error (msg, rep) ∧
        rep.errors ≠ [] ∧ rep.status = "FAILED" ∧ rep.checks = []) := by
  constructor
  · intro cols rows h
    exact ⟨_, _, validateSales_error_of_missing rows h, by simp,
      by simp [ValidationReport.status], rfl⟩
  · intro cols rows h
    exact ⟨_, _, validateUsers_error_of_missing rows h, by simp,
      by simp [ValidationReport.status], rfl⟩

/-- Witness for C8: an empty column list is missing every required column. -/
theorem C8_schema_fatal_witness :
    ∃ msg rep, validateSales [] ([] : List RawSalesRow) = .error (msg, rep) ∧
      rep.errors ≠ [] ∧ rep.status = "FAILED" ∧ rep.checks = [] :=
  C8_schema_fatal.1 [] [] (by decide)

/-! ### Claim C6 -/

/-- C6: re-validating a validated record set removes zero additional
rows: the cleaned output is returned unchanged and the second report's
initial and final counts coincide, for both source kinds. -/
theorem C6_revalidation_fixed_point :
    (∀ (cols : List String) (rows out : List RawSalesRow) (rep : ValidationReport),
      validateSales cols rows = .ok (out, rep) →
      ∃ rep2, validateSales cols out = .ok (out, rep2) ∧
        rep2.initial_count = rep2.final_count) ∧
    (∀ (cols : List String) (rows out : List RawUserRow) (rep : ValidationReport),
      validateUsers cols rows = .ok (out, rep) →
      ∃ rep2, validateUsers cols out = .ok (out, rep2) ∧
        rep2.initial_count = rep2.final_count) := by
  constructor
  · intro cols rows out rep hv
    obtain ⟨hmiss, hout, -, -, -⟩ := validateSales_ok_iff hv
    subst hout
    rcases validateSales_ok_of_missing_nil (salesPipeline rows) hmiss with
      ⟨rep2, hcall, hinit, hfin⟩
    rw [salesPipeline_idem] at hcall hfin
    exact ⟨rep2, hcall, by rw [hinit, hfin]⟩
  · intro cols rows out rep hv
    obtain ⟨hmiss, hout, -, -, -⟩ := validateUsers_ok_iff hv
    subst hout
    rcases validateUsers_ok_of_missing_nil (userPipeline rows) hmiss with
      ⟨rep2, hcall, hinit, hfin⟩
    rw [userPipeline_idem] at hcall hfin
    exact ⟨rep2, hcall, by rw [hinit, hfin]⟩

/-- Witness for C6 on the concrete validated output of `exBadQtyInput`. -/
theorem C6_revalidation_fixed_point_witness :
    ∃ rep2, validateSales salesCols exBadQtyOut = .ok (exBadQtyOut, rep2) ∧
      rep2.initial_count = rep2.final_count :=
  C6_revalidation_fixed_point.1 salesCols exBadQtyInput exBadQtyOut exBadQtyRep exBadQty_eval

/-! ### Claim C4 -/

/-- C4: after Sales validation every surviving row has positive quantity
and unit price and its total is the recomputed product of the two
(superseding any ingested total); on the spec's two-row scenario only
TXN002 survives, with total recomputed from 999 to 20, and the Business
Rules check entry records 1 row removed. -/
theorem C4_business_rules :
    (∀ (cols : List String) (rows out : List RawSalesRow) (rep : ValidationReport),
      validateSales cols rows = .ok (out, rep) →
      ∀ r ∈ out, ∃ q p, r.quantity = some q ∧ 0 < q ∧ r.unit_price = some p ∧
        0 < p ∧ r.total_amount = some (q * p)) ∧
    (validateSales salesCols exBadQtyInput = .ok (exBadQtyOut, exBadQtyRep) ∧
      exBadQtyOut.map (fun r => r.transaction_id) = [some "TXN002"] ∧
      exBadQtyOut.map (fun r => r.total_amount) = [some 20] ∧
      (⟨"Business Rules", "PASSED",
        "Removed 1 rows with invalid quantity/price; recalculated totals"⟩ : CheckEntry)
        ∈ exBadQtyRep.checks) := by
  constructor
  · intro cols rows out rep hv r hr
    obtain ⟨-, hout, -, -, -⟩ := validateSales_ok_iff hv
    subst hout
    rcases (salesPipeline_invariant hr).2.2.2.2 with ⟨q, p, hq, hp, hq0, hp0, ht⟩
    exact ⟨q, p, hq, hq0, hp, hp0, ht⟩
  · exact ⟨exBadQty_eval, by decide, by decide, by decide⟩

/-- Witness for C4's universally quantified part, at the scenario input. -/
theorem C4_business_rules_witness :
    ∃ q p, (exBadQtyOut.get ⟨0, by decide⟩).quantity = some q ∧ 0 < q ∧
      (exBadQtyOut.get ⟨0, by decide⟩).unit_price = some p ∧ 0 < p ∧
      (exBadQtyOut.get ⟨0, by decide⟩).total_amount = some (q * p) :=
  C4_business_rules.1 salesCols exBadQtyInput exBadQtyOut exBadQtyRep exBadQty_eval
    _ (by decide)

/-! ### Claim C10 -/

theorem mapOption_some_of_forall {α β : Type} {g : α → Option β} :
    ∀ {l : List α}, (∀ a ∈ l, (g a).isSome) → ∃ ys, mapOption g l = some ys := by
  intro l
  induction l with
  | nil => intro _; exact ⟨[], rfl⟩
  | cons a as ih =>
    intro h
    rcases Option.isSome_iff_exists.mp (h a (List.mem_cons_self _ _)) with ⟨b, hb⟩
    rcases ih (fun x hx => h x (List.mem_cons_of_mem _ hx)) with ⟨ys, hys⟩
    exact ⟨b :: ys, by simp [mapOption, hb, hys]⟩

/-- A clean Sales row whose product id has a non-numeric residue after
removing `"PROD"`, on which the category lambda raises. -/
def exBadProductRows : List SalesRow :=
  [⟨"TXN001", 1, "PRODX", "C1", 1, 2, 2, some "North"⟩]

/-- A clean Sales row whose product id is `"PROD"` followed by digits. -/
def exDigitsRows : List SalesRow :=
  [⟨"TXN001", 1, "PROD7", "C1", 1, 2, 2, some "North"⟩]

/-- C10: the Sales transform is total only under the unstated
precondition that every `product_id` is the literal `"PROD"` followed by
decimal digits — then the category derivation succeeds and yields
`"Category_" ++ (digits mod 3 + 1)` — while on a record set whose
`product_id` has a non-numeric residue (here `"PRODX"`) the derivation
raises and `transform_csv_data` produces no tables at all. -/
theorem C10_product_id_precondition :
    (∀ rows : List SalesRow,
      (∀ r ∈ rows, ∃ s : String, r.product_id = "PROD" ++ s ∧ s.data ≠ [] ∧
        s.data.all Char.isDigit) →
      ∃ t, transformSales rows = some t ∧
        ∀ p ∈ t.dim_product, ∃ s : String, p.product_id = "PROD" ++ s ∧
          p.product_category = "Category_" ++ toString (digitsToNat s.data % 3 + 1)) ∧
    transformSales exBadProductRows = none := by
  constructor
  · intro rows hshape
    have hsome : ∀ a ∈ withKeys 1 (dedupFirstBy id (rows.map (fun r => r.product_id))),
        ((fun p : Nat × String => (productCategory? p.2).map
          (fun cat => (⟨p.2, p.1, cat⟩ : ProductRow))) a).isSome := by
      intro a ha
      have hmem : a.2 ∈ rows.map (fun r => r.product_id) :=
        mem_of_mem_dedupFirstByAux (snd_mem_of_mem_withKeys ha)
      rcases List.mem_map.mp hmem with ⟨r, hr, hpid⟩
      rcases hshape r hr with ⟨s, hs, hne, hdig⟩
      dsimp only
      rw [← hpid, hs, productCategory_of_digits hne hdig]
      rfl
    rcases mapOption_some_of_forall hsome with ⟨dimp, hdp⟩
    have hdp' : dimProduct rows = some dimp := hdp
    refine ⟨_, by unfold transformSales; rw [hdp']; rfl, ?_⟩
    intro p hp
    have hmem := dimProduct_mem hdp' hp
    rcases List.mem_map.mp hmem.1 with ⟨r, hr, hpid⟩
    rcases hshape r hr with ⟨s, hs, hne, hdig⟩
    refine ⟨s, by rw [← hpid, hs], ?_⟩
    have := hmem.2
    rw [← hpid, hs, productCategory_of_digits hne hdig] at this
    exact (Option.some.injEq _ _ ▸ this.symm)
  · decide

/-- Witness for C10's universally quantified part, at a digit-shaped input. -/
theorem C10_product_id_precondition_witness :
    ∃ t, transformSales exDigitsRows = some t ∧
      ∀ p ∈ t.dim_product, ∃ s : String, p.product_id = "PROD" ++ s ∧
        p.product_category = "Category_" ++ toString (digitsToNat s.data % 3 + 1) :=
  C10_product_id_precondition.1 exDigitsRows (fun r hr => by
    rcases List.mem_singleton.mp hr with rfl
    exact ⟨"7", by decide, by decide, by decide⟩)

/-! ### Claims C1, C3, C7: the multi-region customer -/

/-- The spec's customer scenario: one customer with region North on the
earlier date and South on the later date. -/
def exMultiRegion : List SalesRow :=
  [⟨"TXN001", 1, "PROD1", "C1", 1, 2, 2, some "North"⟩,
   ⟨"TXN002", 2, "PROD1", "C1", 1, 2, 2, some "South"⟩]

/-- C1 (code-bug evidence): on the spec's own scenario — customer C1
with regions North (earlier date) and South (later date) — the
transform's `drop_duplicates()` over BOTH columns emits TWO customer
rows for C1 (keys 1 and 2), not a single row with the earliest-date
region North; this also violates the loader's declared
`customer_id TEXT NOT NULL UNIQUE` constraint on `dim_customer`
(sqlite_loader.py line 69). -/
theorem C1_multiregion_duplicate_customer :
    ∃ t, transformSales exMultiRegion = some t ∧
      t.dim_customer.map (fun c => (c.customer_id, c.region, c.customer_key)) =
        [("C1", some "North", 1), ("C1", some "South", 2)] ∧
      (t.dim_customer.filter (fun c => c.customer_id = "C1")).length = 2 ∧
      (exMultiRegion.map (fun r => r.customer_id)).toFinset.card = 1 := by
  have hdp : dimProduct exMultiRegion = some [⟨"PROD1", 1, "Category_2"⟩] := by decide
  exact ⟨_, by unfold transformSales; rw [hdp]; rfl, by decide, by decide, by decide⟩

/-- C3 counterexample: on the same clean two-row record set the merge on
`customer_id` hits both C1 customer rows, so the fact table has FOUR
rows for two input rows — not one row per validated transaction. -/
theorem C3_counterexample :
    ∃ t, transformSales exMultiRegion = some t ∧ exMultiRegion.length = 2 ∧
      t.fact_sales.length = 4 := by
  have hdp : dimProduct exMultiRegion = some [⟨"PROD1", 1, "Category_2"⟩] := by decide
  exact ⟨_, by unfold transformSales; rw [hdp]; rfl, by decide, by decide⟩

/-- C3 (amended): when no customer identifier occurs with two distinct
region values, the fact table has exactly one row per input row; and —
without that hypothesis — every fact row's `date_id`, `product_key` and
`customer_key` resolve to a row of the co-produced dimension tables. -/
theorem C3_fact_rows_amended (rows : List SalesRow) (t : TransformedSales)
    (ht : transformSales rows = some t) :
    ((∀ r ∈ rows, ∀ r2 ∈ rows, r.customer_id = r2.customer_id →
        r.region = r2.region) → t.fact_sales.length = rows.length) ∧
    ∀ f ∈ t.fact_sales,
      (∃ tr ∈ t.dim_time, f.date_id = some tr.date_id) ∧
      (∃ p ∈ t.dim_product, f.product_key = some p.product_key) ∧
      (∃ c ∈ t.dim_customer, f.customer_key = some c.customer_key) := by
  obtain ⟨hdp, htt, htc, htf⟩ := transformSales_parts ht
  constructor
  · intro hreg
    rw [htf]
    exact factSales_length hdp hreg
  · intro f hf
    rw [htf] at hf
    rw [htt, htc]
    exact factSales_resolves hdp hf

/-- The single-row validated record set used by several witnesses. -/
def exCleanRows : List SalesRow := [⟨"TXN002", 2, "PROD2", "C2", 2, 10, 20, some "South"⟩]

/-- The fact row `transformSales` derives from `exCleanRows`. -/
def exFactRow : FactRow := ⟨"TXN002", some 1, some 1, some 1, 2, 10, 20, 12, 8, 40⟩

/-- The star schema `transformSales` derives from `exCleanRows`. -/
def exTrans : TransformedSales :=
  { fact_sales := [exFactRow], dim_time := [⟨2, 1⟩],
    dim_product := [⟨"PROD2", 1, "Category_3"⟩],
    dim_customer := [⟨"C2", some "South", 1⟩] }

theorem exTrans_eval : transformSales exCleanRows = some exTrans := by
  have hcat : productCategory? "PROD2" = some "Category_3" := by decide
  simp [transformSales, dimTime, dimCustomer, dimProduct, mapOption, withKeys,
    dedupFirstBy, dedupFirstByAux, hcat, factSales, mergeTime, mergeProduct, mergeCustomer,
    joinKeys, timeKeys, productKeys, customerKeys, mkFactRow, exCleanRows, exTrans, exFactRow]
  norm_num

/-- Witness for C3's amended statement at a concrete one-row input. -/
theorem C3_fact_rows_amended_witness :
    exTrans.fact_sales.length = exCleanRows.length ∧
    (∃ tr ∈ exTrans.dim_time, exFactRow.date_id = some tr.date_id) ∧
    (∃ p ∈ exTrans.dim_product, exFactRow.product_key = some p.product_key) ∧
    (∃ c ∈ exTrans.dim_customer, exFactRow.customer_key = some c.customer_key) :=
  ⟨(C3_fact_rows_amended exCleanRows exTrans exTrans_eval).1 (by decide),
   (C3_fact_rows_amended exCleanRows exTrans exTrans_eval).2 exFactRow (by decide)⟩

/-- C7 counterexample: on `exMultiRegion` the customer dimension has 2
rows while the input has a single distinct natural key (customer id). -/
theorem C7_counterexample :
    ∃ t, transformSales exMultiRegion = some t ∧ t.dim_customer.length = 2 ∧
      (exMultiRegion.map (fun r => r.customer_id)).toFinset.card = 1 := by
  have hdp : dimProduct exMultiRegion = some [⟨"PROD1", 1, "Category_2"⟩] := by decide
  exact ⟨_, by unfold transformSales; rw [hdp]; rfl, by decide, by decide⟩

/-- C7 (amended): in every dimension table the surrogate keys are the
contiguous integers 1..n in first-seen order; the row count equals the
number of distinct values of the column set each table is actually
deduplicated on — `date` for Time, `product_id` for Product, the PAIR
(`customer_id`, `region`) for Customer — while the User dimension keeps
one row per input row (no dedup in the transform; its input's ids are
distinct whenever it comes from validation). -/
theorem C7_surrogate_keys_amended (rows : List SalesRow) (t : TransformedSales)
    (ht : transformSales rows = some t) (urows : List RawUserRow) :
    t.dim_time.map (fun x => x.date_id) = List.range' 1 t.dim_time.length ∧
    t.dim_time.length = (rows.map (fun r => r.date)).toFinset.card ∧
    t.dim_product.map (fun p => p.product_key) = List.range' 1 t.dim_product.length ∧
    t.dim_product.length = (rows.map (fun r => r.product_id)).toFinset.card ∧
    t.dim_customer.map (fun c => c.customer_key) = List.range' 1 t.dim_customer.length ∧
    t.dim_customer.length = (rows.map (fun r => (r.customer_id, r.region))).toFinset.card ∧
    (transformUsers urows).map (fun u => u.user_key) = List.range' 1 urows.length := by
  obtain ⟨hdp, htt, htc, -⟩ := transformSales_parts ht
  refine ⟨?_, ?_, dimProduct_keys hdp, ?_, ?_, ?_, transformUsers_keys urows⟩
  · rw [htt]; exact dimTime_ids rows
  · rw [htt]; exact dimTime_length rows
  · have h := congrArg List.length (dimProduct_ids hdp)
    rw [List.length_map] at h
    rw [h, length_dedupFirstBy]
    congr 1
    rw [List.map_id]
  · rw [htc]; exact dimCustomer_keys rows
  · rw [htc]; exact dimCustomer_length rows

/-- Witness for C7's amended statement at a concrete input. -/
theorem C7_surrogate_keys_amended_witness :
    exTrans.dim_time.map (fun x => x.date_id) = List.range' 1 exTrans.dim_time.length ∧
    exTrans.dim_time.length = (exCleanRows.map (fun r => r.date)).toFinset.card ∧
    exTrans.dim_product.map (fun p => p.product_key) =
      List.range' 1 exTrans.dim_product.length ∧
    exTrans.dim_product.length = (exCleanRows.map (fun r => r.product_id)).toFinset.card ∧
    exTrans.dim_customer.map (fun c => c.customer_key) =
      List.range' 1 exTrans.dim_customer.length ∧
    exTrans.dim_customer.length =
      (exCleanRows.map (fun r => (r.customer_id, r.region))).toFinset.card ∧
    (transformUsers []).map (fun u => u.user_key) = List.range' 1 ([] : List RawUserRow).length :=
  C7_surrogate_keys_amended exCleanRows exTrans exTrans_eval []

/-! ### Claim C2 -/

/-- C2: on any Sales record set that passed validation and is then
transformed, every fact row satisfies `revenue = quantity * unit_price`
exactly, `cost = 0.6 * revenue`, and `profit = revenue - cost`
(arithmetic over exact rationals). -/
theorem C2_fact_financials (cols : List String) (rows out : List RawSalesRow)
    (rep : ValidationReport) (clean : List SalesRow) (t : TransformedSales)
    (hv : validateSales cols rows = .ok (out, rep))
    (hc : mapOption toCleanSales out = some clean)
    (ht : transformSales clean = some t) :
    ∀ f ∈ t.fact_sales,
      f.revenue = f.quantity * f.unit_price ∧ f.cost = (6 / 10 : ℚ) * f.revenue ∧
      f.profit = f.revenue - f.cost := by
  intro f hf
  obtain ⟨-, hout, -, -, -⟩ := validateSales_ok_iff hv
  subst hout
  obtain ⟨-, -, -, htf⟩ := transformSales_parts ht
  rw [htf] at hf
  exact factSales_financials hf (clean_total_eq hc)

/-- Witness for C2 along the concrete chain
`exBadQtyInput → exBadQtyOut → exCleanRows → exTrans`. -/
theorem C2_fact_financials_witness :
    exFactRow.revenue = exFactRow.quantity * exFactRow.unit_price ∧
    exFactRow.cost = (6 / 10 : ℚ) * exFactRow.revenue ∧
    exFactRow.profit = exFactRow.revenue - exFactRow.cost :=
  C2_fact_financials salesCols exBadQtyInput exBadQtyOut exBadQtyRep exCleanRows exTrans
    exBadQty_eval (by decide) exTrans_eval exFactRow (by decide)

/-! ### Claim C9 -/

/-- A UserProfile row whose email has two `"@"` characters (it survives
the business-rule check, which only requires one). -/
def exUserMultiAt : RawUserRow :=
  { id := some 1, name := some "A", username := some "a",
    email := some "a@b@c", phone := some "p", website := some "w" }

/-- The report of validating `[exUserMultiAt]`. -/
def exUserMultiAtRep : ValidationReport :=
  { source_type := "api", initial_count := 1, final_count := 1,
    checks := [⟨"Schema Validation", "PASSED", ""⟩,
               ⟨"Null Check", "PASSED", "No null values found"⟩,
               ⟨"Deduplication", "PASSED", "Removed 0 duplicate records"⟩,
               ⟨"Type Enforcement", "PASSED", ""⟩,
               ⟨"Business Rules", "PASSED", "Removed 0 rows with invalid email"⟩],
    errors := [], warnings := [] }

/-- C9 counterexample: the row with email `"a@b@c"` survives validation,
and the transform derives `email_domain = "b"` — the field BETWEEN the
first and second `"@"` (`split("@")[1]`) — while the substring after
`"@"` is `"b@c"`. -/
theorem C9_counterexample :
    validateUsers userCols [exUserMultiAt] = .ok ([exUserMultiAt], exUserMultiAtRep) ∧
    (transformUsers [exUserMultiAt]).map (fun u => u.email_domain) = [some "b"] ∧
    specEmailDomain? "a@b@c" = some "b@c" ∧
    (some "b" : Option String) ≠ some "b@c" := by
  refine ⟨by decide, by decide, by decide, by decide⟩

/-- C9 (amended): validation's business-rule step keeps exactly the rows
(among those surviving the earlier steps) whose email contains `"@"`;
for every surviving row the transform derives `email_domain` as the
second field of splitting the email on `"@"` — which equals the
substring after `"@"` whenever the email contains exactly one `"@"`
(e.g. `"a@b.com" ↦ "b.com"`), but is only the part before the second
`"@"` otherwise. -/
theorem C9_email_amended (cols : List String) (rows out : List RawUserRow)
    (rep : ValidationReport) (hv : validateUsers cols rows = .ok (out, rep)) :
    (∀ r, r ∈ out ↔
      r ∈ userTypeStep (userDedup (userNullStep rows)) ∧ emailHasAt r = true) ∧
    (∀ u ∈ transformUsers out, u.email_domain = emailDomain? u.email) ∧
    (∀ u ∈ transformUsers out, ∀ s, u.email = some s →
      (splitAtSign s.data).length = 2 → u.email_domain = specEmailDomain? s) := by
  obtain ⟨-, hout, -, -, -⟩ := validateUsers_ok_iff hv
  subst hout
  refine ⟨?_, ?_, ?_⟩
  · intro r
    exact List.mem_filter
  · intro u hu
    exact transformUsers_email_domain hu
  · intro u hu s hs hlen
    rw [transformUsers_email_domain hu, hs]
    unfold emailDomain? specEmailDomain?
    rcases hsplit : splitAtSign s.data with - | ⟨a, tl⟩
    · rw [hsplit] at hlen
      cases hlen
    · rcases tl with - | ⟨b, rest⟩
      · rw [hsplit] at hlen
        cases hlen
      · rcases rest with - | ⟨c, rest2⟩
        · simp [hsplit, joinAtSign]
        · rw [hsplit] at hlen
          simp at hlen

/-- A well-formed user row for the C9 witness. -/
def exUserGood : RawUserRow :=
  { id := some 2, name := some "B", username := some "b",
    email := some "a@b.com", phone := some "p", website := some "w" }

/-- The report of validating `[exUserGood]`. -/
def exUserGoodRep : ValidationReport :=
  { source_type := "api", initial_count := 1, final_count := 1,
    checks := [⟨"Schema Validation", "PASSED", ""⟩,
               ⟨"Null Check", "PASSED", "No null values found"⟩,
               ⟨"Deduplication", "PASSED", "Removed 0 duplicate records"⟩,
               ⟨"Type Enforcement", "PASSED", ""⟩,
               ⟨"Business Rules", "PASSED", "Removed 0 rows with invalid email"⟩],
    errors := [], warnings := [] }

/-- The user-dimension row derived from `exUserGood`. -/
def exUserGoodDim : UserRow :=
  { user_key := 1, id := some 2, full_name := some "B", username := some "b",
    email := some "a@b.com", email_domain := some "b.com", phone := some "p",
    website := some "w", name_length := some 1 }

/-- Witness for C9's amended statement: the single-`"@"` email
`"a@b.com"` yields `email_domain = "b.com"`, agreeing with the spec's
substring-after-`"@"` reading. -/
theorem C9_email_amended_witness :
    exUserGoodDim.email_domain = emailDomain? exUserGoodDim.email ∧
    exUserGoodDim.email_domain = specEmailDomain? "a@b.com" :=
  ⟨(C9_email_amended userCols [exUserGood] [exUserGood] exUserGoodRep (by decide)).2.1
     exUserGoodDim (by decide),
   (C9_email_amended userCols [exUserGood] [exUserGood] exUserGoodRep (by decide)).2.2
     exUserGoodDim (by decide) "a@b.com" (by decide) (by decide)⟩
